import Mathlib

/-!
# Dispatch map: selection, rendering and loading logic of `script.js`

A shallow embedding of the script's module state and of the functions that
read and write it, followed by the properties proved about them.

Modelling conventions.

* A parsed cell is `null`, a boolean, a number or a string (`Val`); reading a
  column a record does not have gives `undefined`.  A finite number is
  represented by the rational whose decimal expansion `String(n)` prints;
  `0` and `-0` coincide, which is how truthiness, `===` and `String(..)`
  treat them as well.
* Objects (records, technicians, routing controls) are always truthy, so a
  variable that holds "an object or `null`" is an `Option`.
* Every function that can raise returns a `Result`: the state written up to
  the point of the exception, and the exception.  Modelled exceptions are the
  `TypeError` of a method call on a value without that method, the
  `SyntaxError` of `querySelector` on an invalid selector, the
  `InvalidCharacterError` of `classList.add` on a token with white space, and
  the error `L.latLng` and `L.marker` raise on a coordinate that is not a
  number.
* The selector handed to `querySelector` is built by putting the identifier,
  unescaped, between double quotes.  The model reads the identifier as the
  CSS tokenizer does (escapes, line breaks, an early closing quote).  Where
  the text after an early closing quote, or an escaped closing quote, would
  need a full selector parser to judge, the answer is left to the `Host`
  parameter, about which nothing is assumed.
* Popup markup and map view changes are display only and are not part of the
  state.
-/

namespace DispatchMap

/-! ## Values -/

/-- A parsed cell value, or the result of reading a column. -/
inductive Val where
  | null
  | undefined
  | bool (b : Bool)
  | num (q : ℚ)
  | str (s : String)
  deriving DecidableEq

/-- An exception raised while the script runs. -/
inductive JSError where
  | typeError
  | syntaxError
  | invalidCharacterError
  | invalidLatLng
  deriving DecidableEq, Repr

deriving instance DecidableEq for Except

/-- JavaScript truthiness (`ToBoolean`). -/
def truthy : Val → Bool
  | .null => false
  | .undefined => false
  | .bool b => b
  | .num q => decide (q ≠ 0)
  | .str s => decide (s ≠ "")

/-- Strict equality `===` on primitives. -/
def strictEq (a b : Val) : Bool := decide (a = b)

/-! ### Printing a number -/

/-- The least `j` among the next `fuel` candidates with `d` dividing `10 ^ j`. -/
def decimalScale (d : Nat) : Nat → Nat → Option Nat
  | 0, _ => none
  | fuel + 1, j => if 10 ^ j % d = 0 then some j else decimalScale d fuel (j + 1)

/-- Drop the zeros at the end of a digit list. -/
def stripTrailingZeros (ds : List Char) : List Char :=
  (ds.reverse.dropWhile (fun c => c == '0')).reverse

/-- The text of `Number::toString` for the positive number with significant
digits `s` (no zero at the end) whose decimal point sits `n` places after the
first digit's left edge: positional form for `-6 < n ≤ 21`, exponent form
otherwise. -/
def formatDecimal (s : List Char) (n : Int) : String :=
  let k : Int := s.length
  if k ≤ n ∧ n ≤ 21 then
    String.mk (s ++ List.replicate (n - k).toNat '0')
  else if 0 < n ∧ n ≤ 21 then
    String.mk (s.take n.toNat ++ '.' :: s.drop n.toNat)
  else if -6 < n ∧ n ≤ 0 then
    String.mk ('0' :: '.' :: List.replicate (-n).toNat '0' ++ s)
  else
    let e := n - 1
    let exponent := (if e < 0 then "e-" else "e+") ++ toString e.natAbs
    match s with
    | [] => exponent
    | [c] => String.mk [c] ++ exponent
    | c :: rest => String.mk (c :: '.' :: rest) ++ exponent

/-- The text `String(n)` of a number.  A rational without a finite decimal
expansion stands for no JavaScript number; it is printed as a fraction. -/
def numberToString (q : ℚ) : String :=
  if q = 0 then "0" else
    let a := q.num.natAbs
    let sign := if q.num < 0 then "-" else ""
    match decimalScale q.den (q.den + 1) 0 with
    | none => sign ++ toString a ++ "/" ++ toString q.den
    | some j =>
      let m := 10 ^ j * a / q.den
      let ds := Nat.toDigits 10 m
      sign ++ formatDecimal (stripTrailingZeros ds) ((ds.length : Int) - j)

/-- The text `String(v)`, as used by template literals and `dataset`
assignments. -/
def jsString : Val → String
  | .null => "null"
  | .undefined => "undefined"
  | .bool true => "true"
  | .bool false => "false"
  | .num q => numberToString q
  | .str s => s

/-! ### Reading a string as a number -/

/-- White space and line terminators of `StringToNumber`. -/
def isStrWhiteSpace (c : Char) : Bool :=
  let n := c.toNat
  n == 0x09 || n == 0x0A || n == 0x0B || n == 0x0C || n == 0x0D || n == 0x20 ||
    n == 0xA0 || n == 0x1680 || (0x2000 ≤ n && n ≤ 0x200A) || n == 0x2028 ||
    n == 0x2029 || n == 0x202F || n == 0x205F || n == 0x3000 || n == 0xFEFF

/-- Whether the list is one or more characters, all satisfying `p`. -/
def allOf (p : Char → Bool) (cs : List Char) : Bool := !cs.isEmpty && cs.all p

def isBinaryDigit (c : Char) : Bool := c == '0' || c == '1'

def isOctalDigit (c : Char) : Bool := '0' ≤ c && c ≤ '7'

def isHexDigit (c : Char) : Bool :=
  c.isDigit || ('a' ≤ c && c ≤ 'f') || ('A' ≤ c && c ≤ 'F')

/-- An optional exponent part: nothing, or `e` or `E`, an optional sign and
one or more digits. -/
def isExponentPart : List Char → Bool
  | [] => true
  | c :: rest =>
    (c == 'e' || c == 'E') &&
      (match rest with
       | '+' :: ds => allOf Char.isDigit ds
       | '-' :: ds => allOf Char.isDigit ds
       | ds => allOf Char.isDigit ds)

/-- The production `StrUnsignedDecimalLiteral`. -/
def isUnsignedDecimal (cs : List Char) : Bool :=
  cs == "Infinity".data ||
    (let intPart := cs.takeWhile Char.isDigit
     let rest := cs.dropWhile Char.isDigit
     match rest with
     | '.' :: more =>
       let fracPart := more.takeWhile Char.isDigit
       (!intPart.isEmpty || !fracPart.isEmpty) &&
         isExponentPart (more.dropWhile Char.isDigit)
     | _ => !intPart.isEmpty && isExponentPart rest)

/-- The production `StrNumericLiteral`. -/
def isNumericLiteral : List Char → Bool
  | '0' :: 'b' :: ds => allOf isBinaryDigit ds
  | '0' :: 'B' :: ds => allOf isBinaryDigit ds
  | '0' :: 'o' :: ds => allOf isOctalDigit ds
  | '0' :: 'O' :: ds => allOf isOctalDigit ds
  | '0' :: 'x' :: ds => allOf isHexDigit ds
  | '0' :: 'X' :: ds => allOf isHexDigit ds
  | '+' :: cs => isUnsignedDecimal cs
  | '-' :: cs => isUnsignedDecimal cs
  | cs => isUnsignedDecimal cs

/-- Whether `Number(s)` is `NaN`: the text, trimmed of white space, is
neither empty nor a numeric literal. -/
def stringIsNaN (s : String) : Bool :=
  let trimmed :=
    ((s.data.dropWhile isStrWhiteSpace).reverse.dropWhile isStrWhiteSpace).reverse
  !trimmed.isEmpty && !isNumericLiteral trimmed

/-- The global function `isNaN(v)`. -/
def isNaN : Val → Bool
  | .null => false
  | .undefined => true
  | .bool _ => false
  | .num _ => false
  | .str s => stringIsNaN s

/-! ### Reading an identifier inside a quoted CSS string -/

/-- Input preprocessing of the CSS tokenizer: line breaks become line feeds,
`NUL` becomes `U+FFFD`. -/
def cssPreprocess : List Char → List Char
  | [] => []
  | c :: rest =>
    if c.toNat = 0x0D then
      match rest with
      | d :: rest' =>
        if d.toNat = 0x0A then Char.ofNat 0x0A :: cssPreprocess rest'
        else Char.ofNat 0x0A :: cssPreprocess (d :: rest')
      | [] => [Char.ofNat 0x0A]
    else if c.toNat = 0x0C then Char.ofNat 0x0A :: cssPreprocess rest
    else if c.toNat = 0 then Char.ofNat 0xFFFD :: cssPreprocess rest
    else c :: cssPreprocess rest

/-- The value of a hexadecimal digit. -/
def hexValue (c : Char) : Option Nat :=
  if c.isDigit then some (c.toNat - 48)
  else if 'a' ≤ c && c ≤ 'f' then some (c.toNat - 87)
  else if 'A' ≤ c && c ≤ 'F' then some (c.toNat - 55)
  else none

/-- The code point a hexadecimal escape stands for. -/
def escapedCodePoint (v : Nat) : Char :=
  if v = 0 ∨ (0xD800 ≤ v ∧ v ≤ 0xDFFF) ∨ 0x10FFFF < v then Char.ofNat 0xFFFD
  else Char.ofNat v

/-- Where the tokenizer stands inside the string. -/
inductive ReadMode where
  | normal
  | afterBackslash
  | inHex (value digits : Nat)

/-- The outcome of reading the identifier as the body of the quoted string:
`unclosed v`: the identifier was consumed and the string, with value `v`
(reversed), is closed by the quote the script writes after it; `closed rest`:
a quote inside the identifier closed the string, `rest` follows it;
`badString`: a line break ended the string; `escapedClose`: the identifier
ends in a backslash, which escapes the quote the script writes after it. -/
inductive StringRead where
  | unclosed (value : List Char)
  | closed (rest : List Char)
  | badString
  | escapedClose

/-- Consume a string token whose body starts with the identifier's
characters. -/
def readString : ReadMode → List Char → List Char → StringRead
  | .normal, acc, [] => .unclosed acc
  | .normal, acc, c :: rest =>
    if c.toNat = 0x22 then .closed rest
    else if c.toNat = 0x0A then .badString
    else if c.toNat = 0x5C then readString .afterBackslash acc rest
    else readString .normal (c :: acc) rest
  | .afterBackslash, _, [] => .escapedClose
  | .afterBackslash, acc, c :: rest =>
    if c.toNat = 0x0A then readString .normal acc rest
    else
      match hexValue c with
      | some h => readString (.inHex h 1) acc rest
      | none => readString .normal (c :: acc) rest
  | .inHex v _, acc, [] => .unclosed (escapedCodePoint v :: acc)
  | .inHex v n, acc, c :: rest =>
    match (if n < 6 then hexValue c else none) with
    | some h => readString (.inHex (v * 16 + h) (n + 1)) acc rest
    | none =>
      if c.toNat = 0x0A ∨ c.toNat = 0x09 ∨ c.toNat = 0x20 then
        readString .normal (escapedCodePoint v :: acc) rest
      else if c.toNat = 0x22 then .closed rest
      else if c.toNat = 0x5C then readString .afterBackslash (escapedCodePoint v :: acc) rest
      else readString .normal (c :: escapedCodePoint v :: acc) rest

/-- What the selector built around an identifier asks for. -/
inductive SelectorReading where
  | attrEquals (value : String)
  | invalid
  | undecided
  deriving DecidableEq

/-- Characters that could open a construct able to take in the closing
quote and bracket the script writes: a block, a function, a string, an
escape, a comment. -/
def opensConstruct (c : Char) : Bool :=
  let n := c.toNat
  n == 0x5B || n == 0x28 || n == 0x22 || n == 0x27 || n == 0x5C || n == 0x2F

/-- The reading of the selector with `id` between the quotes.  A valid
selector asks for the items whose data attribute equals the string's value.
After an early closing quote the selector ends in a string token that no
attribute selector or compound selector admits, unless the text in between
opens a construct; then, and for an escaped closing quote, the model does not
decide. -/
def readSelector (id : String) : SelectorReading :=
  match readString .normal [] (cssPreprocess id.data) with
  | .unclosed value => .attrEquals (String.mk value.reverse)
  | .closed rest => if rest.any opensConstruct then .undecided else .invalid
  | .badString => .invalid
  | .escapedClose => .undecided

/-! ## Records and technicians -/

/-- One parsed CSV row: column name to value. -/
abbrev Row := List (String × Val)

/-- Property read `row[key]`. -/
def Row.get (r : Row) (key : String) : Val :=
  match r.lookup key with
  | some v => v
  | none => .undefined

/-- The object built for each of the first ten rows. -/
structure Technician where
  technicianID : Val
  technicianName : Val
  currentLocationLat : Val
  currentLocationLon : Val
  skillsSpecialties : Val
  availabilityStatus : Val
  vehicleID : Val
  deriving DecidableEq

/-- The characters of `s.replace('SR', 'VCL')`: first occurrence only. -/
def replaceSR : List Char → List Char
  | 'S' :: 'R' :: rest => 'V' :: 'C' :: 'L' :: rest
  | c :: rest => c :: replaceSR rest
  | [] => []

/-- The `Vehicle ID` expression: `id ? id.replace('SR', 'VCL') : 'N/A'`. -/
def vehicleIdOf (id : Val) : Except JSError Val :=
  if truthy id then
    match id with
    | .str s => .ok (.str (String.mk (replaceSR s.data)))
    | _ => .error .typeError
  else .ok (.str "N/A")

/-- The arrow function mapped over `rawData.slice(0, 10)`. -/
def toTechnician (row : Row) : Except JSError Technician :=
  match vehicleIdOf (row.get "Service Request ID") with
  | .error e => .error e
  | .ok v => .ok
    { technicianID := row.get "Service Request ID"
      technicianName := row.get "Customer Name"
      currentLocationLat := row.get "Latitude"
      currentLocationLon := row.get "Longitude"
      skillsSpecialties := .str "All Appliances"
      availabilityStatus := .str "Available"
      vehicleID := v }

/-- The method `Array.prototype.map` with a callback that may throw. -/
def mapThrowing {α β : Type} (f : α → Except JSError β) : List α → Except JSError (List β)
  | [] => .ok []
  | a :: rest =>
    match f a with
    | .error e => .error e
    | .ok b =>
      match mapThrowing f rest with
      | .error e => .error e
      | .ok bs => .ok (b :: bs)

/-- The predicate of the request filter in the loader. -/
def keepRequest (row : Row) : Bool :=
  !strictEq (row.get "Latitude") .null && !strictEq (row.get "Longitude") .null &&
    !strictEq (row.get "Service Request ID") .null

/-! ## Icons, markers and list items -/

/-- The options object passed to `L.divIcon`. -/
structure DivIcon where
  className : String
  html : String
  iconSize : Nat × Nat
  iconAnchor : Nat × Nat
  popupAnchor : Int × Int
  deriving DecidableEq

/-- The constant `technicianIcon`. -/
def technicianIcon : DivIcon :=
  { className := "technician-icon"
    html := "<i class=\"fas fa-wrench\"></i>"
    iconSize := (28, 28)
    iconAnchor := (14, 28)
    popupAnchor := (0, -28) }

/-- The function `getRequestIcon(priority)`. -/
def getRequestIcon (priority : Val) : DivIcon :=
  let className :=
    if strictEq priority (.str "High") then "request-marker-high"
    else if strictEq priority (.str "Medium") then "request-marker-medium"
    else "request-marker-low"
  { className := className
    html := ""
    iconSize := (20, 20)
    iconAnchor := (10, 10)
    popupAnchor := (0, -10) }

/-- A marker added to a layer group: the two coordinates handed to
`L.marker`, its icon, and the entity stored on it (`requestData` or
`techData`), which its click handlers select. -/
structure Marker (α : Type) where
  lat : Val
  lon : Val
  icon : DivIcon
  data : α
  deriving DecidableEq

/-- A sidebar `li`: its data attribute (`data-request-id` or
`data-tech-id`), its text, the priority whose lower-cased text names its
class `priority-...` (request items only), whether it carries `selected`,
and the entity its click listener selects. -/
structure ListItem (α : Type) where
  dataId : String
  textContent : String
  priorityClassOf : Option String
  selected : Bool
  entity : α
  deriving DecidableEq

/-- A routing control created by `L.Routing.control`: its two waypoints,
each the pair of values handed to `L.latLng`. -/
structure RoutingControl where
  start : Val × Val
  finish : Val × Val
  deriving DecidableEq

/-- Whether `L.latLng(a, b)` throws: `null` or `undefined` as first argument
is returned as it is, `undefined` as second gives `null`, and otherwise the
`LatLng` constructor rejects an argument for which `isNaN` holds. -/
def latLngThrows (a b : Val) : Bool :=
  !strictEq a .undefined && !strictEq a .null && !strictEq b .undefined &&
    (isNaN a || isNaN b)

/-- Whether `L.marker([a, b])` throws: the `LatLng` constructor rejects an
element for which `isNaN` holds. -/
def markerThrows (a b : Val) : Bool := isNaN a || isNaN b

/-! ## The host -/

/-- The result of `querySelector`: an exception, the position of the first
matching item, or `null`. -/
inductive Lookup where
  | syntaxError
  | element (index : Nat)
  | null
  deriving DecidableEq

/-- The browser's answers on the selectors the model does not decide, given
the selector text and the list searched. -/
structure Host where
  queryTechnicians : String → List (ListItem Technician) → Lookup
  queryRequests : String → List (ListItem Row) → Lookup

/-- The position of the first item satisfying `p`. -/
def firstIndex {α : Type} (p : α → Bool) : List α → Option Nat
  | [] => none
  | a :: rest => if p a then some 0 else (firstIndex p rest).map (· + 1)

/-- The call `list.querySelector(selector)` where the selector is `opening`,
the identifier, a double quote and a closing bracket. -/
def querySelector {α : Type} (outside : String → List (ListItem α) → Lookup)
    (opening id : String) (items : List (ListItem α)) : Lookup :=
  match readSelector id with
  | .attrEquals value =>
    match firstIndex (fun it => it.dataId == value) items with
    | some i => .element i
    | none => .null
  | .invalid => .syntaxError
  | .undecided => outside (opening ++ id ++ "\"]") items

/-- The lookup `technicianListElement.querySelector` with `data-tech-id`. -/
def queryTechnician (host : Host) (id : Val) (items : List (ListItem Technician)) : Lookup :=
  querySelector host.queryTechnicians "li[data-tech-id=\"" (jsString id) items

/-- The lookup `requestListElement.querySelector` with `data-request-id`. -/
def queryRequest (host : Host) (id : Val) (items : List (ListItem Row)) : Lookup :=
  querySelector host.queryRequests "li[data-request-id=\"" (jsString id) items

/-- Set the `selected` flag of the item at position `i`, if there is one. -/
def setSelectedAt {α : Type} (b : Bool) : Nat → List (ListItem α) → List (ListItem α)
  | _, [] => []
  | 0, a :: rest => { a with selected := b } :: rest
  | i + 1, a :: rest => a :: setSelectedAt b i rest

/-- The statement `if (item) item.classList.add` or `remove('selected')` on
the result of a lookup that returned. -/
def applyLookup {α : Type} (b : Bool) (found : Lookup) (items : List (ListItem α)) :
    List (ListItem α) :=
  match found with
  | .element i => setSelectedAt b i items
  | _ => items

/-! ## Module state -/

/-- The script's module-level variables together with the parts of the page
and of the map they drive.  `routeLog` records every routing control created
so far, oldest first; a control is referred to by its position in that log.
`mapControls` are the routing controls currently added to the map. -/
structure State where
  allServiceRequests : List Row
  allTechnicians : List Technician
  selectedTechnician : Option Technician
  selectedServiceRequest : Option Row
  routingControl : Option Nat
  routeLog : List RoutingControl
  mapControls : List Nat
  serviceRequestLayer : List (Marker Row)
  technicianLayer : List (Marker Technician)
  requestList : List (ListItem Row)
  technicianList : List (ListItem Technician)
  priorityFilter : String
  pendingCount : Nat
  deriving DecidableEq

/-- The state once the script's top level has run, before `loadData`
completes; `filter` is the value the priority dropdown shows. -/
def initial (filter : String) : State :=
  { allServiceRequests := []
    allTechnicians := []
    selectedTechnician := none
    selectedServiceRequest := none
    routingControl := none
    routeLog := []
    mapControls := []
    serviceRequestLayer := []
    technicianLayer := []
    requestList := []
    technicianList := []
    priorityFilter := filter
    pendingCount := 0 }

/-- A state together with the exception, if any, that ended the call. -/
structure Result where
  st : State
  error : Option JSError
  deriving DecidableEq

/-! ## Rendering -/

/-- The body of the `forEach` over requests in `renderMapMarkers`: no marker
unless both coordinates are truthy, and then the marker `L.marker` builds, or
its exception. -/
def requestMarker (request : Row) : Except JSError (Option (Marker Row)) :=
  if truthy (request.get "Latitude") && truthy (request.get "Longitude") then
    if markerThrows (request.get "Latitude") (request.get "Longitude") then
      .error .invalidLatLng
    else
      .ok (some
        { lat := request.get "Latitude"
          lon := request.get "Longitude"
          icon := getRequestIcon (request.get "Severity/Priority")
          data := request })
  else .ok none

/-- The body of the `forEach` over technicians in `renderMapMarkers`. -/
def technicianMarker (tech : Technician) : Except JSError (Option (Marker Technician)) :=
  if truthy tech.currentLocationLat && truthy tech.currentLocationLon then
    if markerThrows tech.currentLocationLat tech.currentLocationLon then
      .error .invalidLatLng
    else
      .ok (some
        { lat := tech.currentLocationLat
          lon := tech.currentLocationLon
          icon := technicianIcon
          data := tech })
  else .ok none

/-- A `forEach` whose callback adds at most one element to a layer or list
and may throw: elements are added one by one until a callback throws. -/
def appendEach {α β : Type} (f : α → Except JSError (Option β)) :
    List α → List β → List β × Option JSError
  | [], acc => (acc, none)
  | a :: rest, acc =>
    match f a with
    | .error e => (acc, some e)
    | .ok none => appendEach f rest acc
    | .ok (some b) => appendEach f rest (acc ++ [b])

/-- The function `renderMapMarkers()`: both layers are cleared, then the
request markers are added, then the technician markers. -/
def renderMapMarkers (s : State) : Result :=
  let s1 := { s with serviceRequestLayer := [], technicianLayer := [] }
  match appendEach requestMarker s.allServiceRequests [] with
  | (markers, some e) => { st := { s1 with serviceRequestLayer := markers }, error := some e }
  | (markers, none) =>
    match appendEach technicianMarker s.allTechnicians [] with
    | (techMarkers, e) =>
      { st := { s1 with serviceRequestLayer := markers, technicianLayer := techMarkers }
        error := e }

/-- The filter callback of `renderSidebarLists`. -/
def matchesFilter (selectedPriority : String) (request : Row) : Bool :=
  selectedPriority == "All" ||
    strictEq (request.get "Severity/Priority") (.str selectedPriority)

/-- ASCII white space, which `classList.add` rejects inside a token. -/
def isAsciiWhiteSpace (c : Char) : Bool :=
  let n := c.toNat
  n == 0x09 || n == 0x0A || n == 0x0C || n == 0x0D || n == 0x20

/-- The `li` built for one request.  The method `toLowerCase` is called on
the priority, which throws unless the priority is a string; `classList.add`
then throws if the class contains white space, which lower-casing neither
adds nor removes. -/
def requestItem (selected : Option Row) (request : Row) :
    Except JSError (Option (ListItem Row)) :=
  match request.get "Severity/Priority" with
  | .str p =>
    if p.data.any isAsciiWhiteSpace then .error .invalidCharacterError
    else .ok (some
      { dataId := jsString (request.get "Service Request ID")
        textContent :=
          jsString (request.get "Service Request ID") ++ " - " ++
          jsString (request.get "Customer Name") ++ " (" ++
          jsString (request.get "Appliance Type") ++ ") - Priority: " ++ p
        priorityClassOf := some p
        selected :=
          match selected with
          | some cur =>
            strictEq (cur.get "Service Request ID") (request.get "Service Request ID")
          | none => false
        entity := request })
  | _ => .error .typeError

/-- The `li` built for one technician. -/
def technicianItem (selected : Option Technician) (tech : Technician) : ListItem Technician :=
  { dataId := jsString tech.technicianID
    textContent :=
      jsString tech.technicianName ++ " (" ++ jsString tech.availabilityStatus ++ ")"
    priorityClassOf := none
    selected :=
      match selected with
      | some cur => strictEq cur.technicianID tech.technicianID
      | none => false
    entity := tech }

/-- The function `renderSidebarLists()`. -/
def renderSidebarLists (s : State) : Result :=
  let filteredRequests := s.allServiceRequests.filter (matchesFilter s.priorityFilter)
  let s1 := { s with requestList := [], technicianList := [], pendingCount := filteredRequests.length }
  match appendEach (requestItem s.selectedServiceRequest) filteredRequests [] with
  | (items, some e) => { st := { s1 with requestList := items }, error := some e }
  | (items, none) =>
    { st := { s1 with
              requestList := items
              technicianList := s.allTechnicians.map (technicianItem s.selectedTechnician) }
      error := none }

/-! ## Selection and routing -/

/-- The call `map.removeControl(c)`. -/
def removeControl (c : Nat) (controls : List Nat) : List Nat :=
  controls.filter (fun x => x != c)

/-- The function `drawRouteIfReady()`.  The previous control is taken off the
map first; the two `L.latLng` calls come next and may throw, before any
control is created or assigned. -/
def drawRouteIfReady (s : State) : Result :=
  match s.selectedTechnician, s.selectedServiceRequest with
  | some tech, some request =>
    let controls :=
      match s.routingControl with
      | some c => removeControl c s.mapControls
      | none => s.mapControls
    if latLngThrows tech.currentLocationLat tech.currentLocationLon ||
        latLngThrows (request.get "Latitude") (request.get "Longitude") then
      { st := { s with mapControls := controls }, error := some .invalidLatLng }
    else
      let created : RoutingControl :=
        { start := (tech.currentLocationLat, tech.currentLocationLon)
          finish := (request.get "Latitude", request.get "Longitude") }
      { st := { s with
                routeLog := s.routeLog ++ [created]
                routingControl := some s.routeLog.length
                mapControls := controls ++ [s.routeLog.length] }
        error := none }
  | _, _ => { st := s, error := none }

/-- Lines 266 to 269, and their like in the other handlers: the list after
the previous selection's item, if one is found, has lost `selected`, or the
exception of the lookup. -/
def unmarkPrevious {α : Type} (found : Option Lookup) (items : List (ListItem α)) :
    Except JSError (List (ListItem α)) :=
  match found with
  | none => .ok items
  | some .syntaxError => .error .syntaxError
  | some l => .ok (applyLookup false l items)

/-- The function `selectTechnician(tech)`. -/
def selectTechnician (host : Host) (s : State) (tech : Technician) : Result :=
  match unmarkPrevious
      (s.selectedTechnician.map (fun prev => queryTechnician host prev.technicianID s.technicianList))
      s.technicianList with
  | .error e => { st := s, error := some e }
  | .ok items =>
    let s1 := { s with selectedTechnician := some tech, technicianList := items }
    match queryTechnician host tech.technicianID items with
    | .syntaxError => { st := s1, error := some .syntaxError }
    | found => drawRouteIfReady { s1 with technicianList := applyLookup true found items }

/-- The function `selectServiceRequest(request)`. -/
def selectServiceRequest (host : Host) (s : State) (request : Row) : Result :=
  match unmarkPrevious
      (s.selectedServiceRequest.map
        (fun prev => queryRequest host (prev.get "Service Request ID") s.requestList))
      s.requestList with
  | .error e => { st := s, error := some e }
  | .ok items =>
    let s1 := { s with selectedServiceRequest := some request, requestList := items }
    match queryRequest host (request.get "Service Request ID") items with
    | .syntaxError => { st := s1, error := some .syntaxError }
    | found => drawRouteIfReady { s1 with requestList := applyLookup true found items }

/-- The click handler of the clear-route button. -/
def clearRoute (host : Host) (s : State) : Result :=
  let s1 :=
    match s.routingControl with
    | some c => { s with mapControls := removeControl c s.mapControls, routingControl := none }
    | none => s
  match unmarkPrevious
      (s1.selectedTechnician.map (fun prev => queryTechnician host prev.technicianID s1.technicianList))
      s1.technicianList with
  | .error e => { st := s1, error := some e }
  | .ok techItems =>
    let s2 := { s1 with technicianList := techItems, selectedTechnician := none }
    match unmarkPrevious
        (s2.selectedServiceRequest.map
          (fun prev => queryRequest host (prev.get "Service Request ID") s2.requestList))
        s2.requestList with
    | .error e => { st := s2, error := some e }
    | .ok requestItems =>
      { st := { s2 with requestList := requestItems, selectedServiceRequest := none }
        error := none }

/-- The `change` handler of the priority dropdown: the dropdown shows `value`
and `renderSidebarLists` runs. -/
def filterChange (s : State) (value : String) : Result :=
  renderSidebarLists { s with priorityFilter := value }

/-! ## Loading -/

/-- The `complete` callback of `loadData`, applied to the parsed rows. -/
def complete (s : State) (rawData : List Row) : Result :=
  match mapThrowing toTechnician (rawData.take 10) with
  | .error e => { st := s, error := some e }
  | .ok technicians =>
    let drawn := renderMapMarkers
      { s with
        allTechnicians := technicians
        allServiceRequests := (rawData.drop 10).filter keepRequest }
    match drawn.error with
    | some _ => drawn
    | none => renderSidebarLists drawn.st

/-- The state the page is in once `loadData` has run on `rawData`. -/
def loaded (filter : String) (rawData : List Row) : State :=
  (complete (initial filter) rawData).st

/-- A user action on a loaded page. -/
inductive Action where
  | selectTechnician (tech : Technician)
  | selectServiceRequest (request : Row)
  | filterChange (value : String)
  | clearRoute

/-- The state after one action, whether it returned or threw. -/
def step (host : Host) (s : State) : Action → State
  | .selectTechnician tech => (selectTechnician host s tech).st
  | .selectServiceRequest request => (selectServiceRequest host s request).st
  | .filterChange value => (filterChange s value).st
  | .clearRoute => (clearRoute host s).st

/-- The state after a sequence of actions. -/
def run (host : Host) (s : State) (actions : List Action) : State :=
  actions.foldl (step host) s

/-- Number of items carrying `selected`. -/
def selectedCount {α : Type} (items : List (ListItem α)) : Nat :=
  (items.filter (fun it => it.selected)).length

/-! ## Identifier keys and the sidebar invariants -/

/-- The data attribute written for a technician. -/
def technicianKey (t : Technician) : String := jsString t.technicianID

/-- The data attribute written for a request. -/
def requestKey (r : Row) : String := jsString (r.get "Service Request ID")

/-- An identifier that the selector reads back as itself: the lookup built
around it is valid and asks for the items whose data attribute is that very
text. -/
def PlainId (id : String) : Prop := readSelector id = .attrEquals id

instance (id : String) : Decidable (PlainId id) := by
  unfold PlainId
  infer_instance

/-- Set the `selected` flag of the first item whose data attribute is `id`. -/
def setFirst {α : Type} (b : Bool) (id : String) : List (ListItem α) → List (ListItem α)
  | [] => []
  | a :: rest =>
    if a.dataId = id then { a with selected := b } :: rest else a :: setFirst b id rest

/-- The list once the item of the previous selection, if there is a previous
selection, has lost `selected`. -/
def clearPrevious {α : Type} (prev : Option String) (items : List (ListItem α)) :
    List (ListItem α) :=
  match prev with
  | some id => setFirst false id items
  | none => items

/-- What holds of the technician list between actions when the technicians'
identifier strings are plain and pairwise distinct: data attributes are
pairwise distinct, the current selection has a plain identifier, and an item
carries `selected` only if its attribute is that of the current selection. -/
structure TechnicianInv (s : State) : Prop where
  keys : (s.allTechnicians.map technicianKey).Nodup
  items : (s.technicianList.map (fun it => it.dataId)).Nodup
  plain : ∀ p, s.selectedTechnician = some p → PlainId (technicianKey p)
  sel : ∀ it ∈ s.technicianList, it.selected = true →
    ∃ p, s.selectedTechnician = some p ∧ it.dataId = technicianKey p

/-- The same for the request list. -/
structure RequestInv (s : State) : Prop where
  keys : (s.allServiceRequests.map requestKey).Nodup
  items : (s.requestList.map (fun it => it.dataId)).Nodup
  plain : ∀ p, s.selectedServiceRequest = some p → PlainId (requestKey p)
  sel : ∀ it ∈ s.requestList, it.selected = true →
    ∃ p, s.selectedServiceRequest = some p ∧ it.dataId = requestKey p

/-- Every technician selected by the actions has a plain identifier. -/
def PlainTechnicianArgs : List Action → Prop
  | [] => True
  | .selectTechnician t :: rest => PlainId (technicianKey t) ∧ PlainTechnicianArgs rest
  | _ :: rest => PlainTechnicianArgs rest

/-- Every request selected by the actions has a plain identifier. -/
def PlainRequestArgs : List Action → Prop
  | [] => True
  | .selectServiceRequest r :: rest => PlainId (requestKey r) ∧ PlainRequestArgs rest
  | _ :: rest => PlainRequestArgs rest

/-! ## Sample data -/

/-- A parsed row with string identifier `id`, at latitude `lat` and longitude
`lon`, with the given priority cell. -/
def sampleRow (id : String) (lat lon : ℚ) (priority : Val) : Row :=
  [("Service Request ID", .str id), ("Customer Name", .str "Customer"),
   ("Appliance Type", .str "Fridge"), ("Severity/Priority", priority),
   ("Latitude", .num lat), ("Longitude", .num lon)]

/-- The technician the loader builds from `sampleRow id lat lon _`. -/
def sampleTechnician (id vehicle : String) (lat lon : ℚ) : Technician :=
  { technicianID := .str id
    technicianName := .str "Customer"
    currentLocationLat := .num lat
    currentLocationLon := .num lon
    skillsSpecialties := .str "All Appliances"
    availabilityStatus := .str "Available"
    vehicleID := .str vehicle }

/-- A row whose identifier cell was typed as the number 1001. -/
def numericIdRow : Row :=
  [("Service Request ID", .num 1001), ("Customer Name", .str "Customer"),
   ("Severity/Priority", .str "Low"), ("Latitude", .num 1), ("Longitude", .num 32)]

/-- Eleven rows: `numericIdRow`, nine technician rows, and one complete
request row `SR011`. -/
def numericIdDataset : List Row :=
  numericIdRow :: List.replicate 9 (sampleRow "SR002" 1 32 (.str "Low")) ++
    [sampleRow "SR011" 2 33 (.str "High")]

/-- Three loadable requests, the second with an empty priority cell. -/
def blankPriorityRequests : List Row :=
  [sampleRow "SR011" 2 33 (.str "High"), sampleRow "SR012" 2 33 .null,
   sampleRow "SR013" 2 33 (.str "Low")]

/-- Twelve rows, ten technicians and two requests, with pairwise distinct
identifiers; the second technician's identifier is `SR"2`, the CSV cell
`"SR""2"`. -/
def quotedIdDataset : List Row :=
  ["SR001", "SR\"2", "SR003", "SR004", "SR005", "SR006", "SR007", "SR008", "SR009",
    "SR010", "SR011", "SR012"].map (fun id => sampleRow id 1 32 (.str "High"))

/-- The technician loaded from the second row of `quotedIdDataset`. -/
def quotedTechnician : Technician := sampleTechnician "SR\"2" "VCL\"2" 1 32

/-- The page after `quotedIdDataset` is loaded and the technician `SR"2` is
clicked. -/
def quotedSelected (host : Host) : State :=
  (selectTechnician host (loaded "All" quotedIdDataset) quotedTechnician).st

/-- The page after `quotedIdDataset` is loaded, the technician `SR"2` is
clicked and then the request `SR011`. -/
def quotedRouted (host : Host) : State :=
  (selectServiceRequest host (quotedSelected host) (sampleRow "SR011" 1 32 (.str "High"))).st

/-- The page after `quotedIdDataset` is loaded, the technician `SR001` is
clicked and then the request `SR011`. -/
def plainRouted (host : Host) : State :=
  (selectServiceRequest host
    (selectTechnician host (loaded "All" quotedIdDataset) (sampleTechnician "SR001" "VCL001" 1 32)).st
    (sampleRow "SR011" 1 32 (.str "High"))).st

/-- Two technician rows with the distinct identifiers `SR\1` and `SR003`. -/
def escapedIdDataset : List Row :=
  [sampleRow "SR\\1" 1 32 (.str "Low"), sampleRow "SR003" 3 34 (.str "Low")]

/-- Two rows that carry the same identifier `SR001`. -/
def duplicateIdDataset : List Row :=
  [sampleRow "SR001" 1 32 (.str "Low"), sampleRow "SR001" 2 33 (.str "Low")]

/-- Three technician rows: identifier the string `null`, an empty identifier
cell, and `SR003`. -/
def blankIdDataset : List Row :=
  [sampleRow "null" 1 32 (.str "Low"),
   [("Service Request ID", .null), ("Customer Name", .str "Customer"),
    ("Latitude", .num 2), ("Longitude", .num 33)],
   sampleRow "SR003" 3 34 (.str "Low")]

/-- A technician whose latitude cell holds the text `north`. -/
def northTechnician : Technician :=
  { sampleTechnician "SR002" "VCL002" 3 34 with currentLocationLat := .str "north" }

/-! ## Basic facts about the routing step -/

theorem drawRouteIfReady_frame (s : State) :
    (drawRouteIfReady s).st.selectedTechnician = s.selectedTechnician ∧
      (drawRouteIfReady s).st.selectedServiceRequest = s.selectedServiceRequest ∧
      (drawRouteIfReady s).st.technicianList = s.technicianList ∧
      (drawRouteIfReady s).st.requestList = s.requestList ∧
      (drawRouteIfReady s).st.allTechnicians = s.allTechnicians ∧
      (drawRouteIfReady s).st.allServiceRequests = s.allServiceRequests := by
  obtain ⟨rs, ts, st, sr, rc, rl, mc, srl, tl, rql, tcl, pf, pc⟩ := s
  cases st with
  | none => exact ⟨rfl, rfl, rfl, rfl, rfl, rfl⟩
  | some tech =>
    cases sr with
    | none => exact ⟨rfl, rfl, rfl, rfl, rfl, rfl⟩
    | some request =>
      simp only [drawRouteIfReady]
      split <;> exact ⟨rfl, rfl, rfl, rfl, rfl, rfl⟩

/-- When a selection is missing, `drawRouteIfReady` changes nothing. -/
theorem drawRouteIfReady_not_ready (s : State)
    (h : s.selectedTechnician = none ∨ s.selectedServiceRequest = none) :
    drawRouteIfReady s = { st := s, error := none } := by
  unfold drawRouteIfReady
  split
  · rename_i tech request ht hr
    rcases h with h | h
    · rw [h] at ht; cases ht
    · rw [h] at hr; cases hr
  · rfl

/-- If `drawRouteIfReady` creates a routing control, both selections are set. -/
theorem drawRouteIfReady_created (s : State)
    (h : (drawRouteIfReady s).st.routeLog ≠ s.routeLog) :
    s.selectedTechnician.isSome = true ∧ s.selectedServiceRequest.isSome = true := by
  unfold drawRouteIfReady at h
  split at h
  · rename_i tech request ht hr
    simp [ht, hr]
  · exact absurd rfl h

/-- The three ways `selectTechnician` can end: at the first lookup, with the
state untouched; at the second lookup, with the selection set; or in
`drawRouteIfReady`, with the selection set. -/
theorem selectTechnician_cases (host : Host) (s : State) (t : Technician) :
    (selectTechnician host s t).st = s ∨
      (∃ items, (selectTechnician host s t).st =
        { s with selectedTechnician := some t, technicianList := items }) ∨
      (∃ items, selectTechnician host s t =
        drawRouteIfReady { s with selectedTechnician := some t, technicianList := items }) := by
  unfold selectTechnician
  split
  · exact Or.inl rfl
  · rename_i items _
    simp only
    split
    · exact Or.inr (Or.inl ⟨items, rfl⟩)
    · exact Or.inr (Or.inr ⟨_, rfl⟩)

/-- The three ways `selectServiceRequest` can end. -/
theorem selectServiceRequest_cases (host : Host) (s : State) (r : Row) :
    (selectServiceRequest host s r).st = s ∨
      (∃ items, (selectServiceRequest host s r).st =
        { s with selectedServiceRequest := some r, requestList := items }) ∨
      (∃ items, selectServiceRequest host s r =
        drawRouteIfReady { s with selectedServiceRequest := some r, requestList := items }) := by
  unfold selectServiceRequest
  split
  · exact Or.inl rfl
  · rename_i items _
    simp only
    split
    · exact Or.inr (Or.inl ⟨items, rfl⟩)
    · exact Or.inr (Or.inr ⟨_, rfl⟩)


/-! ## Lookups with a plain identifier -/

theorem firstIndex_setSelectedAt {α : Type} (b : Bool) (id : String) :
    ∀ items : List (ListItem α),
      applyLookup b
        (match firstIndex (fun it => it.dataId == id) items with
          | some i => Lookup.element i
          | none => Lookup.null) items = setFirst b id items := by
  intro items
  induction items with
  | nil => rfl
  | cons a rest ih =>
    by_cases h : a.dataId = id
    · simp [firstIndex, setFirst, h, applyLookup, setSelectedAt]
    · have hb : (a.dataId == id) = false := by simpa using h
      simp only [firstIndex, hb, setFirst, h, if_false]
      cases hf : firstIndex (fun it => it.dataId == id) rest with
      | none =>
        rw [hf] at ih
        simp only [applyLookup] at ih
        simp [applyLookup, ← ih]
      | some i =>
        rw [hf] at ih
        simp only [applyLookup] at ih
        simp [applyLookup, setSelectedAt, ih]

/-- With a plain identifier the lookup returns, and changing the flag of its
result changes the first item carrying that identifier. -/
theorem querySelector_plain {α : Type} (outside : String → List (ListItem α) → Lookup)
    (opening id : String) (items : List (ListItem α)) (h : PlainId id) :
    querySelector outside opening id items ≠ .syntaxError ∧
      ∀ b, applyLookup b (querySelector outside opening id items) items = setFirst b id items := by
  unfold PlainId at h
  have hq : querySelector outside opening id items =
      (match firstIndex (fun it => it.dataId == id) items with
        | some i => Lookup.element i
        | none => Lookup.null) := by
    simp only [querySelector, h]
  rw [hq]
  constructor
  · cases firstIndex (fun it => it.dataId == id) items with
    | none => intro hc; cases hc
    | some i => intro hc; cases hc
  · intro b
    exact firstIndex_setSelectedAt b id items

theorem unmarkPrevious_plain {α : Type} (outside : String → List (ListItem α) → Lookup)
    (opening : String) (prev : Option String) (items : List (ListItem α))
    (h : ∀ id, prev = some id → PlainId id) :
    unmarkPrevious (prev.map (fun id => querySelector outside opening id items)) items
      = .ok (clearPrevious prev items) := by
  cases prev with
  | none => rfl
  | some id =>
    obtain ⟨hne, hset⟩ := querySelector_plain outside opening id items (h id rfl)
    simp only [Option.map_some', unmarkPrevious, clearPrevious]
    cases hq : querySelector outside opening id items with
    | syntaxError => exact absurd hq hne
    | element i => rw [← hset false, hq]
    | null => rw [← hset false, hq]

/-- With a plain previous identifier `selectTechnician` reaches the
assignment: it ends at the second lookup or in `drawRouteIfReady`. -/
theorem selectTechnician_of_plain_previous (host : Host) (s : State) (t : Technician)
    (hprev : ∀ p, s.selectedTechnician = some p → PlainId (technicianKey p)) :
    (selectTechnician host s t).st =
        { s with
          selectedTechnician := some t
          technicianList := clearPrevious (s.selectedTechnician.map technicianKey) s.technicianList } ∨
      selectTechnician host s t = drawRouteIfReady
        { s with
          selectedTechnician := some t
          technicianList := applyLookup true
            (queryTechnician host t.technicianID
              (clearPrevious (s.selectedTechnician.map technicianKey) s.technicianList))
            (clearPrevious (s.selectedTechnician.map technicianKey) s.technicianList) } := by
  have h1 := unmarkPrevious_plain host.queryTechnicians "li[data-tech-id=\""
    (s.selectedTechnician.map technicianKey) s.technicianList (by
      intro id hid
      cases hs : s.selectedTechnician with
      | none => rw [hs] at hid; cases hid
      | some p =>
        rw [hs] at hid
        simp only [Option.map_some', Option.some.injEq] at hid
        rw [← hid]
        exact hprev p hs)
  have h2 : s.selectedTechnician.map
      (fun prev => queryTechnician host prev.technicianID s.technicianList) =
      (s.selectedTechnician.map technicianKey).map
        (fun id => querySelector host.queryTechnicians "li[data-tech-id=\"" id s.technicianList) := by
    cases s.selectedTechnician <;> rfl
  unfold selectTechnician
  rw [h2, h1]
  simp only
  split
  · exact Or.inl rfl
  · exact Or.inr rfl

/-- With plain identifiers `selectTechnician` reaches `drawRouteIfReady`, the
new item marked. -/
theorem selectTechnician_of_plain (host : Host) (s : State) (t : Technician)
    (hprev : ∀ p, s.selectedTechnician = some p → PlainId (technicianKey p))
    (ht : PlainId (technicianKey t)) :
    selectTechnician host s t = drawRouteIfReady
      { s with
        selectedTechnician := some t
        technicianList := setFirst true (technicianKey t)
          (clearPrevious (s.selectedTechnician.map technicianKey) s.technicianList) } := by
  obtain ⟨hne, hset⟩ := querySelector_plain host.queryTechnicians "li[data-tech-id=\""
    (technicianKey t) (clearPrevious (s.selectedTechnician.map technicianKey) s.technicianList) ht
  have h1 := unmarkPrevious_plain host.queryTechnicians "li[data-tech-id=\""
    (s.selectedTechnician.map technicianKey) s.technicianList (by
      intro id hid
      cases hs : s.selectedTechnician with
      | none => rw [hs] at hid; cases hid
      | some p =>
        rw [hs] at hid
        simp only [Option.map_some', Option.some.injEq] at hid
        rw [← hid]
        exact hprev p hs)
  have h2 : s.selectedTechnician.map
      (fun prev => queryTechnician host prev.technicianID s.technicianList) =
      (s.selectedTechnician.map technicianKey).map
        (fun id => querySelector host.queryTechnicians "li[data-tech-id=\"" id s.technicianList) := by
    cases s.selectedTechnician <;> rfl
  unfold selectTechnician
  rw [h2, h1]
  simp only
  split
  · rename_i hq
    exact absurd hq hne
  · rw [← hset true]
    rfl

/-- With a plain previous identifier `selectServiceRequest` reaches the
assignment. -/
theorem selectServiceRequest_of_plain_previous (host : Host) (s : State) (r : Row)
    (hprev : ∀ p, s.selectedServiceRequest = some p → PlainId (requestKey p)) :
    (selectServiceRequest host s r).st =
        { s with
          selectedServiceRequest := some r
          requestList := clearPrevious (s.selectedServiceRequest.map requestKey) s.requestList } ∨
      selectServiceRequest host s r = drawRouteIfReady
        { s with
          selectedServiceRequest := some r
          requestList := applyLookup true
            (queryRequest host (r.get "Service Request ID")
              (clearPrevious (s.selectedServiceRequest.map requestKey) s.requestList))
            (clearPrevious (s.selectedServiceRequest.map requestKey) s.requestList) } := by
  have h1 := unmarkPrevious_plain host.queryRequests "li[data-request-id=\""
    (s.selectedServiceRequest.map requestKey) s.requestList (by
      intro id hid
      cases hs : s.selectedServiceRequest with
      | none => rw [hs] at hid; cases hid
      | some p =>
        rw [hs] at hid
        simp only [Option.map_some', Option.some.injEq] at hid
        rw [← hid]
        exact hprev p hs)
  have h2 : s.selectedServiceRequest.map
      (fun prev => queryRequest host (prev.get "Service Request ID") s.requestList) =
      (s.selectedServiceRequest.map requestKey).map
        (fun id => querySelector host.queryRequests "li[data-request-id=\"" id s.requestList) := by
    cases s.selectedServiceRequest <;> rfl
  unfold selectServiceRequest
  rw [h2, h1]
  simp only
  split
  · exact Or.inl rfl
  · exact Or.inr rfl

/-- With plain identifiers `selectServiceRequest` reaches `drawRouteIfReady`,
the new item marked. -/
theorem selectServiceRequest_of_plain (host : Host) (s : State) (r : Row)
    (hprev : ∀ p, s.selectedServiceRequest = some p → PlainId (requestKey p))
    (hr : PlainId (requestKey r)) :
    selectServiceRequest host s r = drawRouteIfReady
      { s with
        selectedServiceRequest := some r
        requestList := setFirst true (requestKey r)
          (clearPrevious (s.selectedServiceRequest.map requestKey) s.requestList) } := by
  obtain ⟨hne, hset⟩ := querySelector_plain host.queryRequests "li[data-request-id=\""
    (requestKey r) (clearPrevious (s.selectedServiceRequest.map requestKey) s.requestList) hr
  have h1 := unmarkPrevious_plain host.queryRequests "li[data-request-id=\""
    (s.selectedServiceRequest.map requestKey) s.requestList (by
      intro id hid
      cases hs : s.selectedServiceRequest with
      | none => rw [hs] at hid; cases hid
      | some p =>
        rw [hs] at hid
        simp only [Option.map_some', Option.some.injEq] at hid
        rw [← hid]
        exact hprev p hs)
  have h2 : s.selectedServiceRequest.map
      (fun prev => queryRequest host (prev.get "Service Request ID") s.requestList) =
      (s.selectedServiceRequest.map requestKey).map
        (fun id => querySelector host.queryRequests "li[data-request-id=\"" id s.requestList) := by
    cases s.selectedServiceRequest <;> rfl
  unfold selectServiceRequest
  rw [h2, h1]
  simp only
  split
  · rename_i hq
    exact absurd hq hne
  · rw [← hset true]
    rfl

theorem unmarkPrevious_technician (host : Host) (sel : Option Technician)
    (items : List (ListItem Technician))
    (h : ∀ p, sel = some p → PlainId (technicianKey p)) :
    unmarkPrevious (sel.map (fun prev => queryTechnician host prev.technicianID items)) items
      = .ok (clearPrevious (sel.map technicianKey) items) := by
  have h1 := unmarkPrevious_plain host.queryTechnicians "li[data-tech-id=\""
    (sel.map technicianKey) items (by
      intro id hid
      cases sel with
      | none => cases hid
      | some p =>
        simp only [Option.map_some', Option.some.injEq] at hid
        rw [← hid]
        exact h p rfl)
  rw [← h1]
  cases sel <;> rfl

theorem unmarkPrevious_request (host : Host) (sel : Option Row)
    (items : List (ListItem Row))
    (h : ∀ p, sel = some p → PlainId (requestKey p)) :
    unmarkPrevious
        (sel.map (fun prev => queryRequest host (prev.get "Service Request ID") items)) items
      = .ok (clearPrevious (sel.map requestKey) items) := by
  have h1 := unmarkPrevious_plain host.queryRequests "li[data-request-id=\""
    (sel.map requestKey) items (by
      intro id hid
      cases sel with
      | none => cases hid
      | some p =>
        simp only [Option.map_some', Option.some.injEq] at hid
        rw [← hid]
        exact h p rfl)
  rw [← h1]
  cases sel <;> rfl

theorem removeControl_not_mem (c : Nat) (controls : List Nat) :
    c ∉ removeControl c controls := by
  simp [removeControl]

/-! ## Where the selection claims hold -/

/-- When the selected technician and the selected request, if any, have
plain identifiers, the clear-route handler returns with no selection and no
routing control held, the control that was held is off the map, and the items
of the two previous selections have lost `selected`. -/
theorem clearRoute_resets_of_plain (host : Host) (s : State)
    (hT : ∀ p, s.selectedTechnician = some p → PlainId (technicianKey p))
    (hR : ∀ p, s.selectedServiceRequest = some p → PlainId (requestKey p)) :
    (clearRoute host s).error = none ∧
      (clearRoute host s).st.selectedTechnician = none ∧
      (clearRoute host s).st.selectedServiceRequest = none ∧
      (clearRoute host s).st.routingControl = none ∧
      (∀ c, s.routingControl = some c → c ∉ (clearRoute host s).st.mapControls) ∧
      (clearRoute host s).st.technicianList
        = clearPrevious (s.selectedTechnician.map technicianKey) s.technicianList ∧
      (clearRoute host s).st.requestList
        = clearPrevious (s.selectedServiceRequest.map requestKey) s.requestList ∧
      (clearRoute host s).st.allTechnicians = s.allTechnicians ∧
      (clearRoute host s).st.allServiceRequests = s.allServiceRequests := by
  obtain ⟨rs, ts, st, sr, rc, rl, mc, srl, tl, rql, tcl, pf, pc⟩ := s
  have h1 := unmarkPrevious_technician host st tcl hT
  have h2 := unmarkPrevious_request host sr rql hR
  cases rc with
  | none => simp [clearRoute, h1, h2]
  | some c => simp [clearRoute, h1, h2, removeControl]

/-- When the current technician, if any, has a plain identifier,
`selectTechnician` makes its argument the selected technician and keeps the
selected request; likewise for `selectServiceRequest`. -/
theorem select_sets_of_plain_previous (host : Host) (s : State) (t : Technician) (r : Row) :
    ((∀ p, s.selectedTechnician = some p → PlainId (technicianKey p)) →
      (selectTechnician host s t).st.selectedTechnician = some t ∧
        (selectTechnician host s t).st.selectedServiceRequest = s.selectedServiceRequest) ∧
    ((∀ p, s.selectedServiceRequest = some p → PlainId (requestKey p)) →
      (selectServiceRequest host s r).st.selectedServiceRequest = some r ∧
        (selectServiceRequest host s r).st.selectedTechnician = s.selectedTechnician) := by
  constructor
  · intro h
    rcases selectTechnician_of_plain_previous host s t h with h1 | h1
    · rw [h1]; exact ⟨rfl, rfl⟩
    · rw [h1]
      have hf := drawRouteIfReady_frame
        { s with
          selectedTechnician := some t
          technicianList := applyLookup true
            (queryTechnician host t.technicianID
              (clearPrevious (s.selectedTechnician.map technicianKey) s.technicianList))
            (clearPrevious (s.selectedTechnician.map technicianKey) s.technicianList) }
      exact ⟨hf.1, hf.2.1⟩
  · intro h
    rcases selectServiceRequest_of_plain_previous host s r h with h1 | h1
    · rw [h1]; exact ⟨rfl, rfl⟩
    · rw [h1]
      have hf := drawRouteIfReady_frame
        { s with
          selectedServiceRequest := some r
          requestList := applyLookup true
            (queryRequest host (r.get "Service Request ID")
              (clearPrevious (s.selectedServiceRequest.map requestKey) s.requestList))
            (clearPrevious (s.selectedServiceRequest.map requestKey) s.requestList) }
      exact ⟨hf.2.1, hf.1⟩

/-- When the current and the new technician have plain identifiers and
`L.latLng` accepts the coordinates of the new technician and of the selected
request, `selectTechnician` keeps the request, takes the held control off the
map and creates exactly one control, from the new technician to the
request, which becomes the held control and is on the map. -/
theorem reselect_reroutes_of_plain (host : Host) (s : State) (t2 : Technician) (r : Row)
    (c : Nat)
    (hprev : ∀ p, s.selectedTechnician = some p → PlainId (technicianKey p))
    (ht : PlainId (technicianKey t2))
    (hr : s.selectedServiceRequest = some r) (hc : s.routingControl = some c)
    (hlog : c < s.routeLog.length)
    (hll : latLngThrows t2.currentLocationLat t2.currentLocationLon = false)
    (hlr : latLngThrows (r.get "Latitude") (r.get "Longitude") = false) :
    (selectTechnician host s t2).error = none ∧
      (selectTechnician host s t2).st.selectedServiceRequest = some r ∧
      (selectTechnician host s t2).st.selectedTechnician = some t2 ∧
      c ∉ (selectTechnician host s t2).st.mapControls ∧
      (selectTechnician host s t2).st.routeLog = s.routeLog ++
        [{ start := (t2.currentLocationLat, t2.currentLocationLon)
           finish := (r.get "Latitude", r.get "Longitude") }] ∧
      (selectTechnician host s t2).st.routingControl = some s.routeLog.length ∧
      s.routeLog.length ∈ (selectTechnician host s t2).st.mapControls := by
  rw [selectTechnician_of_plain host s t2 hprev ht]
  have hne : s.routeLog.length ≠ c := Nat.ne_of_gt hlog
  simp [drawRouteIfReady, hr, hc, hll, hlr, removeControl, hne, Ne.symm hne]

/-! ## Sidebar items: generic facts -/

theorem setFirst_map_dataId {α : Type} (b : Bool) (id : String) (items : List (ListItem α)) :
    (setFirst b id items).map (fun it => it.dataId) = items.map (fun it => it.dataId) := by
  induction items with
  | nil => rfl
  | cons a rest ih =>
    by_cases h : a.dataId = id
    · simp [setFirst, h]
    · simp [setFirst, h, ih]

theorem setFirst_cons {α : Type} (b : Bool) (id : String) (a : ListItem α)
    (rest : List (ListItem α)) :
    setFirst b id (a :: rest) =
      if a.dataId = id then { a with selected := b } :: rest else a :: setFirst b id rest :=
  rfl

/-- With pairwise distinct data attributes, if every selected item has
attribute `id` then after the first such item is unmarked no item is
selected. -/
theorem setFirst_false_clears {α : Type} (id : String) (items : List (ListItem α))
    (hnd : (items.map (fun it => it.dataId)).Nodup)
    (hsel : ∀ it ∈ items, it.selected = true → it.dataId = id) :
    ∀ it ∈ setFirst false id items, it.selected = false := by
  induction items with
  | nil => intro it hit; simp [setFirst] at hit
  | cons a rest ih =>
    have hnd' : a.dataId ∉ rest.map (fun it => it.dataId) ∧
        (rest.map (fun it => it.dataId)).Nodup := List.nodup_cons.mp hnd
    have hrest : ∀ it ∈ rest, it.selected = true → it.dataId = id :=
      fun it hit => hsel it (List.mem_cons_of_mem a hit)
    intro it hit
    rw [setFirst_cons] at hit
    by_cases h : a.dataId = id
    · rw [if_pos h] at hit
      rcases List.mem_cons.mp hit with heq | hit
      · rw [heq]
      · by_contra hs
        have hs' : it.selected = true := by simpa using hs
        have hid := hrest it hit hs'
        apply hnd'.1
        rw [h, ← hid]
        exact List.mem_map_of_mem (fun it => it.dataId) hit
    · rw [if_neg h] at hit
      rcases List.mem_cons.mp hit with heq | hit
      · by_contra hs
        rw [heq] at hs
        exact h (hsel a (List.mem_cons_self _ _) (by simpa using hs))
      · exact ih hnd'.2 hrest it hit

/-- After the first item with attribute `id` is marked in a list with no
selected item, every selected item has attribute `id`. -/
theorem setFirst_true_dataId {α : Type} (id : String) (items : List (ListItem α))
    (hnone : ∀ it ∈ items, it.selected = false) :
    ∀ it ∈ setFirst true id items, it.selected = true → it.dataId = id := by
  induction items with
  | nil => intro it hit; simp [setFirst] at hit
  | cons a rest ih =>
    have hrest : ∀ it ∈ rest, it.selected = false :=
      fun it hit => hnone it (List.mem_cons_of_mem a hit)
    intro it hit hs
    rw [setFirst_cons] at hit
    by_cases h : a.dataId = id
    · rw [if_pos h] at hit
      rcases List.mem_cons.mp hit with heq | hit
      · rw [heq]; exact h
      · rw [hrest it hit] at hs; cases hs
    · rw [if_neg h] at hit
      rcases List.mem_cons.mp hit with heq | hit
      · rw [heq, hnone a (List.mem_cons_self _ _)] at hs; cases hs
      · exact ih hrest it hit hs

/-- With pairwise distinct data attributes, if every selected item has
attribute `id` then at most one item is selected. -/
theorem selectedCount_le_one {α : Type} (id : String) (items : List (ListItem α))
    (hnd : (items.map (fun it => it.dataId)).Nodup)
    (hsel : ∀ it ∈ items, it.selected = true → it.dataId = id) :
    selectedCount items ≤ 1 := by
  induction items with
  | nil => simp [selectedCount]
  | cons a rest ih =>
    have hnd' : a.dataId ∉ rest.map (fun it => it.dataId) ∧
        (rest.map (fun it => it.dataId)).Nodup := List.nodup_cons.mp hnd
    have hrest : ∀ it ∈ rest, it.selected = true → it.dataId = id :=
      fun it hit => hsel it (List.mem_cons_of_mem a hit)
    have ih' := ih hnd'.2 hrest
    by_cases ha : a.selected = true
    · have hid := hsel a (List.mem_cons_self _ _) ha
      have hnone : rest.filter (fun it => it.selected) = [] := by
        rw [List.filter_eq_nil_iff]
        intro it hit hs
        apply hnd'.1
        rw [hid, ← hrest it hit hs]
        exact List.mem_map_of_mem (fun it => it.dataId) hit
      simp [selectedCount, List.filter_cons, ha, hnone]
    · have ha' : a.selected = false := by simpa using ha
      simpa [selectedCount, List.filter_cons, ha'] using ih'

theorem selectedCount_eq_zero {α : Type} (items : List (ListItem α))
    (hnone : ∀ it ∈ items, it.selected = false) : selectedCount items = 0 := by
  simp only [selectedCount, List.length_eq_zero, List.filter_eq_nil_iff]
  intro it hit hs
  rw [hnone it hit] at hs
  cases hs

theorem clearPrevious_map_dataId {α : Type} (prev : Option String)
    (items : List (ListItem α)) :
    (clearPrevious prev items).map (fun it => it.dataId) = items.map (fun it => it.dataId) := by
  cases prev with
  | none => rfl
  | some id => exact setFirst_map_dataId false id items

/-- Once the item of the previous selection is unmarked, no item of the list
is selected. -/
theorem clearPrevious_clears {α β : Type} (key : β → String) (sel : Option β)
    (items : List (ListItem α))
    (hnd : (items.map (fun it => it.dataId)).Nodup)
    (hsel : ∀ it ∈ items, it.selected = true → ∃ p, sel = some p ∧ it.dataId = key p) :
    ∀ it ∈ clearPrevious (sel.map key) items, it.selected = false := by
  cases sel with
  | none =>
    intro it hit
    by_contra hs
    obtain ⟨p, hp, -⟩ := hsel it hit (by simpa using hs)
    cases hp
  | some prev =>
    apply setFirst_false_clears _ _ hnd
    intro it hit hs
    obtain ⟨p, hp, hid⟩ := hsel it hit hs
    cases hp
    exact hid

/-! ## Rendering establishes the sidebar invariants -/

theorem requestItem_ok (sel : Option Row) (r : Row) (it : Option (ListItem Row))
    (h : requestItem sel r = .ok it) :
    ∃ item, it = some item ∧ item.dataId = requestKey r ∧ item.entity = r ∧
      (item.selected = true → ∃ cur, sel = some cur ∧ item.dataId = requestKey cur) := by
  unfold requestItem at h
  split at h
  · split at h
    · cases h
    · injection h with h
      subst h
      refine ⟨_, rfl, rfl, rfl, ?_⟩
      intro hs
      cases sel with
      | none => simp at hs
      | some cur =>
        refine ⟨cur, rfl, ?_⟩
        have : cur.get "Service Request ID" = r.get "Service Request ID" := by
          simpa [strictEq] using hs
        simp [requestKey, this]
  · cases h

/-- The items appended by the request loop are those of the first `k`
filtered requests, for some `k`, which is all of them when the loop
completes. -/
theorem appendEach_requestItem (sel : Option Row) (l : List Row) :
    ∀ acc : List (ListItem Row), ∃ k,
      (appendEach (requestItem sel) l acc).1.map (fun it => it.dataId)
        = acc.map (fun it => it.dataId) ++ (l.take k).map requestKey ∧
      (appendEach (requestItem sel) l acc).1.map (fun it => it.entity)
        = acc.map (fun it => it.entity) ++ l.take k ∧
      ((appendEach (requestItem sel) l acc).2 = none → l.length ≤ k) ∧
      ∀ it ∈ (appendEach (requestItem sel) l acc).1, it ∈ acc ∨
        (it.selected = true → ∃ cur, sel = some cur ∧ it.dataId = requestKey cur) := by
  induction l with
  | nil =>
    intro acc
    exact ⟨0, by simp [appendEach], by simp [appendEach], by simp,
      fun it hit => Or.inl hit⟩
  | cons r rest ih =>
    intro acc
    cases hreq : requestItem sel r with
    | error e =>
      refine ⟨0, by simp [appendEach, hreq], by simp [appendEach, hreq], ?_, ?_⟩
      · simp [appendEach, hreq]
      · intro it hit
        simp only [appendEach, hreq] at hit
        exact Or.inl hit
    | ok produced =>
      obtain ⟨item, hsome, hid, hent, hsel⟩ := requestItem_ok sel r produced hreq
      subst hsome
      obtain ⟨k, h1, h2, h3, h4⟩ := ih (acc ++ [item])
      refine ⟨k + 1, ?_, ?_, ?_, ?_⟩
      · simp only [appendEach, hreq]
        rw [h1]
        simp [hid]
      · simp only [appendEach, hreq]
        rw [h2]
        simp [hent]
      · intro hn
        simp only [appendEach, hreq] at hn
        have := h3 hn
        simp only [List.length_cons]
        omega
      · intro it hit
        simp only [appendEach, hreq] at hit
        rcases h4 it hit with hmem | hs
        · rcases List.mem_append.mp hmem with hacc | hnew
          · exact Or.inl hacc
          · have : it = item := by simpa using hnew
            rw [this]
            exact Or.inr hsel
        · exact Or.inr hs

theorem renderSidebarLists_frame (s : State) :
    (renderSidebarLists s).st.allTechnicians = s.allTechnicians ∧
      (renderSidebarLists s).st.allServiceRequests = s.allServiceRequests ∧
      (renderSidebarLists s).st.selectedTechnician = s.selectedTechnician ∧
      (renderSidebarLists s).st.selectedServiceRequest = s.selectedServiceRequest := by
  unfold renderSidebarLists
  simp only
  split <;> exact ⟨rfl, rfl, rfl, rfl⟩

theorem renderMapMarkers_frame (s : State) :
    (renderMapMarkers s).st.allTechnicians = s.allTechnicians ∧
      (renderMapMarkers s).st.allServiceRequests = s.allServiceRequests ∧
      (renderMapMarkers s).st.selectedTechnician = s.selectedTechnician ∧
      (renderMapMarkers s).st.selectedServiceRequest = s.selectedServiceRequest ∧
      (renderMapMarkers s).st.technicianList = s.technicianList ∧
      (renderMapMarkers s).st.requestList = s.requestList := by
  unfold renderMapMarkers
  simp only
  split <;> exact ⟨rfl, rfl, rfl, rfl, rfl, rfl⟩

/-- The technician list after a render: empty if the request loop threw,
otherwise one item per technician. -/
theorem renderSidebarLists_technicianList (s : State) :
    (renderSidebarLists s).st.technicianList = [] ∨
      (renderSidebarLists s).st.technicianList
        = s.allTechnicians.map (technicianItem s.selectedTechnician) := by
  unfold renderSidebarLists
  simp only
  split
  · exact Or.inl rfl
  · exact Or.inr rfl

theorem renderSidebarLists_requestList (s : State) :
    (renderSidebarLists s).st.requestList =
      (appendEach (requestItem s.selectedServiceRequest)
        (s.allServiceRequests.filter (matchesFilter s.priorityFilter)) []).1 := by
  unfold renderSidebarLists
  simp only
  split
  · rename_i items e heq
    show items = _
    rw [heq]
  · rename_i items heq
    show items = _
    rw [heq]

theorem renderSidebarLists_technicianInv (s : State)
    (hk : (s.allTechnicians.map technicianKey).Nodup)
    (hp : ∀ p, s.selectedTechnician = some p → PlainId (technicianKey p)) :
    TechnicianInv (renderSidebarLists s).st := by
  have hf := renderSidebarLists_frame s
  refine ⟨by rw [hf.1]; exact hk, ?_, by rw [hf.2.2.1]; exact hp, ?_⟩
  · rcases renderSidebarLists_technicianList s with h | h
    · rw [h]; exact List.nodup_nil
    · rw [h]
      simp only [List.map_map]
      exact hk
  · rw [hf.2.2.1]
    rcases renderSidebarLists_technicianList s with h | h
    · rw [h]; intro it hit; cases hit
    · rw [h]
      intro it hit hs
      simp only [List.mem_map] at hit
      obtain ⟨t, -, rfl⟩ := hit
      cases hsel : s.selectedTechnician with
      | none => simp [technicianItem, hsel] at hs
      | some cur =>
        refine ⟨cur, rfl, ?_⟩
        have : cur.technicianID = t.technicianID := by
          simpa [technicianItem, hsel, strictEq] using hs
        simp [technicianItem, technicianKey, this]

theorem renderSidebarLists_requestInv (s : State)
    (hk : (s.allServiceRequests.map requestKey).Nodup)
    (hp : ∀ p, s.selectedServiceRequest = some p → PlainId (requestKey p)) :
    RequestInv (renderSidebarLists s).st := by
  have hf := renderSidebarLists_frame s
  obtain ⟨k, h1, -, -, h4⟩ := appendEach_requestItem s.selectedServiceRequest
    (s.allServiceRequests.filter (matchesFilter s.priorityFilter)) []
  refine ⟨by rw [hf.2.1]; exact hk, ?_, by rw [hf.2.2.2]; exact hp, ?_⟩
  · rw [renderSidebarLists_requestList, h1]
    simp only [List.map_nil, List.nil_append]
    refine List.Nodup.sublist ?_ hk
    exact List.Sublist.map _ ((List.take_sublist _ _).trans (List.filter_sublist _))
  · rw [renderSidebarLists_requestList, hf.2.2.2]
    intro it hit hs
    rcases h4 it hit with hmem | h
    · cases hmem
    · exact h hs

/-! ## Actions preserve the sidebar invariants -/

theorem selectServiceRequest_technician_frame (host : Host) (s : State) (r : Row) :
    (selectServiceRequest host s r).st.technicianList = s.technicianList ∧
      (selectServiceRequest host s r).st.selectedTechnician = s.selectedTechnician ∧
      (selectServiceRequest host s r).st.allTechnicians = s.allTechnicians := by
  rcases selectServiceRequest_cases host s r with h0 | ⟨items, h1⟩ | ⟨items, h2⟩
  · rw [h0]; exact ⟨rfl, rfl, rfl⟩
  · rw [h1]; exact ⟨rfl, rfl, rfl⟩
  · rw [h2]
    have hf := drawRouteIfReady_frame
      { s with selectedServiceRequest := some r, requestList := items }
    exact ⟨hf.2.2.1, hf.1, hf.2.2.2.2.1⟩

theorem selectTechnician_request_frame (host : Host) (s : State) (t : Technician) :
    (selectTechnician host s t).st.requestList = s.requestList ∧
      (selectTechnician host s t).st.selectedServiceRequest = s.selectedServiceRequest ∧
      (selectTechnician host s t).st.allServiceRequests = s.allServiceRequests := by
  rcases selectTechnician_cases host s t with h0 | ⟨items, h1⟩ | ⟨items, h2⟩
  · rw [h0]; exact ⟨rfl, rfl, rfl⟩
  · rw [h1]; exact ⟨rfl, rfl, rfl⟩
  · rw [h2]
    have hf := drawRouteIfReady_frame
      { s with selectedTechnician := some t, technicianList := items }
    exact ⟨hf.2.2.2.1, hf.2.1, hf.2.2.2.2.2⟩

theorem selectTechnician_technicianInv (host : Host) (s : State) (t : Technician)
    (h : TechnicianInv s) (ht : PlainId (technicianKey t)) :
    TechnicianInv (selectTechnician host s t).st := by
  obtain ⟨hk, hi, hp, hs⟩ := h
  rw [selectTechnician_of_plain host s t hp ht]
  have hf := drawRouteIfReady_frame
    { s with
      selectedTechnician := some t
      technicianList := setFirst true (technicianKey t)
        (clearPrevious (s.selectedTechnician.map technicianKey) s.technicianList) }
  have hclear := clearPrevious_clears technicianKey s.selectedTechnician s.technicianList hi hs
  refine ⟨by rw [hf.2.2.2.2.1]; exact hk, ?_, ?_, ?_⟩
  · rw [hf.2.2.1]
    show ((setFirst _ _ _).map _).Nodup
    rw [setFirst_map_dataId, clearPrevious_map_dataId]
    exact hi
  · rw [hf.1]
    intro p hp'
    have : t = p := by simpa using hp'
    rw [← this]
    exact ht
  · rw [hf.2.2.1, hf.1]
    intro it hit hsel
    exact ⟨t, rfl, setFirst_true_dataId _ _ hclear it hit hsel⟩

theorem selectServiceRequest_requestInv (host : Host) (s : State) (r : Row)
    (h : RequestInv s) (hr : PlainId (requestKey r)) :
    RequestInv (selectServiceRequest host s r).st := by
  obtain ⟨hk, hi, hp, hs⟩ := h
  rw [selectServiceRequest_of_plain host s r hp hr]
  have hf := drawRouteIfReady_frame
    { s with
      selectedServiceRequest := some r
      requestList := setFirst true (requestKey r)
        (clearPrevious (s.selectedServiceRequest.map requestKey) s.requestList) }
  have hclear := clearPrevious_clears requestKey s.selectedServiceRequest s.requestList hi hs
  refine ⟨by rw [hf.2.2.2.2.2]; exact hk, ?_, ?_, ?_⟩
  · rw [hf.2.2.2.1]
    show ((setFirst _ _ _).map _).Nodup
    rw [setFirst_map_dataId, clearPrevious_map_dataId]
    exact hi
  · rw [hf.2.1]
    intro p hp'
    have : r = p := by simpa using hp'
    rw [← this]
    exact hr
  · rw [hf.2.2.2.1, hf.2.1]
    intro it hit hsel
    exact ⟨r, rfl, setFirst_true_dataId _ _ hclear it hit hsel⟩

theorem selectServiceRequest_technicianInv (host : Host) (s : State) (r : Row)
    (h : TechnicianInv s) : TechnicianInv (selectServiceRequest host s r).st := by
  obtain ⟨hk, hi, hp, hs⟩ := h
  obtain ⟨h1, h2, h3⟩ := selectServiceRequest_technician_frame host s r
  exact ⟨by rw [h3]; exact hk, by rw [h1]; exact hi, by rw [h2]; exact hp,
    by rw [h1, h2]; exact hs⟩

theorem selectTechnician_requestInv (host : Host) (s : State) (t : Technician)
    (h : RequestInv s) : RequestInv (selectTechnician host s t).st := by
  obtain ⟨hk, hi, hp, hs⟩ := h
  obtain ⟨h1, h2, h3⟩ := selectTechnician_request_frame host s t
  exact ⟨by rw [h3]; exact hk, by rw [h1]; exact hi, by rw [h2]; exact hp,
    by rw [h1, h2]; exact hs⟩

/-- With a plain technician selection the clear-route handler gets past the
technician part, whatever happens in the request part. -/
theorem clearRoute_technician_of_plain (host : Host) (s : State)
    (hT : ∀ p, s.selectedTechnician = some p → PlainId (technicianKey p)) :
    (clearRoute host s).st.technicianList
        = clearPrevious (s.selectedTechnician.map technicianKey) s.technicianList ∧
      (clearRoute host s).st.selectedTechnician = none ∧
      (clearRoute host s).st.allTechnicians = s.allTechnicians := by
  obtain ⟨rs, ts, st, sr, rc, rl, mc, srl, tl, rql, tcl, pf, pc⟩ := s
  have h1 := unmarkPrevious_technician host st tcl hT
  cases rc with
  | none =>
    simp only [clearRoute, h1]
    split <;> exact ⟨rfl, rfl, rfl⟩
  | some c =>
    simp only [clearRoute, h1]
    split <;> exact ⟨rfl, rfl, rfl⟩

/-- With a plain request selection the clear-route handler either stops in
the technician part, leaving the request list and selection as they were, or
resets them. -/
theorem clearRoute_request_of_plain (host : Host) (s : State)
    (hR : ∀ p, s.selectedServiceRequest = some p → PlainId (requestKey p)) :
    (clearRoute host s).st.allServiceRequests = s.allServiceRequests ∧
      (((clearRoute host s).st.requestList = s.requestList ∧
          (clearRoute host s).st.selectedServiceRequest = s.selectedServiceRequest) ∨
        ((clearRoute host s).st.requestList
            = clearPrevious (s.selectedServiceRequest.map requestKey) s.requestList ∧
          (clearRoute host s).st.selectedServiceRequest = none)) := by
  obtain ⟨rs, ts, st, sr, rc, rl, mc, srl, tl, rql, tcl, pf, pc⟩ := s
  have h2 := unmarkPrevious_request host sr rql hR
  cases rc with
  | none =>
    simp only [clearRoute]
    split
    · simp
    · simp [h2]
  | some c =>
    simp only [clearRoute]
    split
    · simp
    · simp [h2]

theorem clearRoute_technicianInv (host : Host) (s : State) (h : TechnicianInv s) :
    TechnicianInv (clearRoute host s).st := by
  obtain ⟨hk, hi, hp, hs⟩ := h
  obtain ⟨h1, h2, h3⟩ := clearRoute_technician_of_plain host s hp
  have hclear := clearPrevious_clears technicianKey s.selectedTechnician s.technicianList hi hs
  refine ⟨by rw [h3]; exact hk, ?_, ?_, ?_⟩
  · rw [h1, clearPrevious_map_dataId]; exact hi
  · rw [h2]; intro p hp'; cases hp'
  · rw [h1]
    intro it hit hsel
    rw [hclear it hit] at hsel
    cases hsel

theorem clearRoute_requestInv (host : Host) (s : State) (h : RequestInv s) :
    RequestInv (clearRoute host s).st := by
  obtain ⟨hk, hi, hp, hs⟩ := h
  obtain ⟨h3, hcase⟩ := clearRoute_request_of_plain host s hp
  have hclear := clearPrevious_clears requestKey s.selectedServiceRequest s.requestList hi hs
  rcases hcase with ⟨h1, h2⟩ | ⟨h1, h2⟩
  · exact ⟨by rw [h3]; exact hk, by rw [h1]; exact hi, by rw [h2]; exact hp,
      by rw [h1, h2]; exact hs⟩
  · refine ⟨by rw [h3]; exact hk, ?_, ?_, ?_⟩
    · rw [h1, clearPrevious_map_dataId]; exact hi
    · rw [h2]; intro p hp'; cases hp'
    · rw [h1]
      intro it hit hsel
      rw [hclear it hit] at hsel
      cases hsel

theorem run_technicianInv (host : Host) (actions : List Action) :
    ∀ s : State, TechnicianInv s → PlainTechnicianArgs actions →
      TechnicianInv (run host s actions) := by
  induction actions with
  | nil => intro s h _; exact h
  | cons a rest ih =>
    intro s h ha
    cases a with
    | selectTechnician tech =>
      exact ih _ (selectTechnician_technicianInv host s tech h ha.1) ha.2
    | selectServiceRequest request =>
      exact ih _ (selectServiceRequest_technicianInv host s request h) ha
    | filterChange value =>
      exact ih _ (renderSidebarLists_technicianInv _ h.keys h.plain) ha
    | clearRoute => exact ih _ (clearRoute_technicianInv host s h) ha

theorem run_requestInv (host : Host) (actions : List Action) :
    ∀ s : State, RequestInv s → PlainRequestArgs actions →
      RequestInv (run host s actions) := by
  induction actions with
  | nil => intro s h _; exact h
  | cons a rest ih =>
    intro s h ha
    cases a with
    | selectTechnician tech =>
      exact ih _ (selectTechnician_requestInv host s tech h) ha
    | selectServiceRequest request =>
      exact ih _ (selectServiceRequest_requestInv host s request h ha.1) ha.2
    | filterChange value =>
      exact ih _ (renderSidebarLists_requestInv _ h.keys h.plain) ha
    | clearRoute => exact ih _ (clearRoute_requestInv host s h) ha

/-- The three ways the loader can end: in the technician mapping, with the
state untouched; in `renderMapMarkers`; or in `renderSidebarLists`. -/
theorem complete_cases (s : State) (rawData : List Row) :
    (complete s rawData).st = s ∨
      ∃ technicians, mapThrowing toTechnician (rawData.take 10) = .ok technicians ∧
        ((complete s rawData).st = (renderMapMarkers
            { s with
              allTechnicians := technicians
              allServiceRequests := (rawData.drop 10).filter keepRequest }).st ∨
          (complete s rawData).st = (renderSidebarLists (renderMapMarkers
            { s with
              allTechnicians := technicians
              allServiceRequests := (rawData.drop 10).filter keepRequest }).st).st) := by
  unfold complete
  cases hm : mapThrowing toTechnician (rawData.take 10) with
  | error e => exact Or.inl rfl
  | ok technicians =>
    refine Or.inr ⟨technicians, rfl, ?_⟩
    simp only
    split
    · exact Or.inl rfl
    · exact Or.inr rfl

/-- The loaded page satisfies the technician invariant when the loaded
technicians' identifier strings are pairwise distinct. -/
theorem loaded_technicianInv (filter : String) (rawData : List Row)
    (hk : ((loaded filter rawData).allTechnicians.map technicianKey).Nodup) :
    TechnicianInv (loaded filter rawData) := by
  unfold loaded at hk ⊢
  rcases complete_cases (initial filter) rawData with h | ⟨technicians, -, h | h⟩
  · rw [h] at hk ⊢
    exact ⟨hk, List.nodup_nil, fun p hp => (by cases hp), fun it hit => (by cases hit)⟩
  · rw [h] at hk ⊢
    have hf := renderMapMarkers_frame
      { initial filter with
        allTechnicians := technicians
        allServiceRequests := (rawData.drop 10).filter keepRequest }
    refine ⟨hk, ?_, ?_, ?_⟩
    · rw [hf.2.2.2.2.1]; exact List.nodup_nil
    · rw [hf.2.2.1]; intro p hp; cases hp
    · rw [hf.2.2.2.2.1]; intro it hit; cases hit
  · rw [h] at hk ⊢
    have hf := renderMapMarkers_frame
      { initial filter with
        allTechnicians := technicians
        allServiceRequests := (rawData.drop 10).filter keepRequest }
    have hr := renderSidebarLists_frame (renderMapMarkers
      { initial filter with
        allTechnicians := technicians
        allServiceRequests := (rawData.drop 10).filter keepRequest }).st
    apply renderSidebarLists_technicianInv
    · rw [← hr.1]; exact hk
    · rw [hf.2.2.1]; intro p hp; cases hp

/-- The loaded page satisfies the request invariant when the loaded
requests' identifier strings are pairwise distinct. -/
theorem loaded_requestInv (filter : String) (rawData : List Row)
    (hk : ((loaded filter rawData).allServiceRequests.map requestKey).Nodup) :
    RequestInv (loaded filter rawData) := by
  unfold loaded at hk ⊢
  rcases complete_cases (initial filter) rawData with h | ⟨technicians, -, h | h⟩
  · rw [h] at hk ⊢
    exact ⟨hk, List.nodup_nil, fun p hp => (by cases hp), fun it hit => (by cases hit)⟩
  · rw [h] at hk ⊢
    have hf := renderMapMarkers_frame
      { initial filter with
        allTechnicians := technicians
        allServiceRequests := (rawData.drop 10).filter keepRequest }
    refine ⟨hk, ?_, ?_, ?_⟩
    · rw [hf.2.2.2.2.2]; exact List.nodup_nil
    · rw [hf.2.2.2.1]; intro p hp; cases hp
    · rw [hf.2.2.2.2.2]; intro it hit; cases hit
  · rw [h] at hk ⊢
    have hf := renderMapMarkers_frame
      { initial filter with
        allTechnicians := technicians
        allServiceRequests := (rawData.drop 10).filter keepRequest }
    have hr := renderSidebarLists_frame (renderMapMarkers
      { initial filter with
        allTechnicians := technicians
        allServiceRequests := (rawData.drop 10).filter keepRequest }).st
    apply renderSidebarLists_requestInv
    · rw [← hr.2.1]; exact hk
    · rw [hf.2.2.2.1]; intro p hp; cases hp

theorem technicianInv_count (s : State) (h : TechnicianInv s) :
    selectedCount s.technicianList ≤ 1 := by
  obtain ⟨-, h1, -, h3⟩ := h
  cases hsel : s.selectedTechnician with
  | none =>
    rw [selectedCount_eq_zero]
    · exact Nat.zero_le 1
    · intro it hit
      by_contra hs
      obtain ⟨p, hp, -⟩ := h3 it hit (by simpa using hs)
      rw [hsel] at hp
      cases hp
  | some cur =>
    apply selectedCount_le_one (technicianKey cur) _ h1
    intro it hit hs
    obtain ⟨p, hp, hid⟩ := h3 it hit hs
    rw [hsel] at hp
    cases hp
    exact hid

theorem requestInv_count (s : State) (h : RequestInv s) :
    selectedCount s.requestList ≤ 1 := by
  obtain ⟨-, h1, -, h3⟩ := h
  cases hsel : s.selectedServiceRequest with
  | none =>
    rw [selectedCount_eq_zero]
    · exact Nat.zero_le 1
    · intro it hit
      by_contra hs
      obtain ⟨p, hp, -⟩ := h3 it hit (by simpa using hs)
      rw [hsel] at hp
      cases hp
  | some cur =>
    apply selectedCount_le_one (requestKey cur) _ h1
    intro it hit hs
    obtain ⟨p, hp, hid⟩ := h3 it hit hs
    rw [hsel] at hp
    cases hp
    exact hid

/-! ## Where the highlight claim holds -/

/-- When the loaded technicians have pairwise distinct identifier strings
and every technician the actions select has a plain identifier, at most one
technician item carries `selected` after the actions, whatever the requests
are and whatever the host answers. -/
theorem technician_selected_at_most_one (host : Host) (filter : String) (rawData : List Row)
    (actions : List Action)
    (hk : ((loaded filter rawData).allTechnicians.map technicianKey).Nodup)
    (ha : PlainTechnicianArgs actions) :
    selectedCount (run host (loaded filter rawData) actions).technicianList ≤ 1 :=
  technicianInv_count _
    (run_technicianInv host actions _ (loaded_technicianInv filter rawData hk) ha)

/-- When the loaded requests have pairwise distinct identifier strings and
every request the actions select has a plain identifier, at most one request
item carries `selected` after the actions. -/
theorem request_selected_at_most_one (host : Host) (filter : String) (rawData : List Row)
    (actions : List Action)
    (hk : ((loaded filter rawData).allServiceRequests.map requestKey).Nodup)
    (ha : PlainRequestArgs actions) :
    selectedCount (run host (loaded filter rawData) actions).requestList ≤ 1 :=
  requestInv_count _
    (run_requestInv host actions _ (loaded_requestInv filter rawData hk) ha)

/-! ## Worked examples -/

/-- Twelve rows that have no column at all still give ten technicians, each
with the placeholder vehicle identifier. -/
theorem loaded_twelve_blank_rows :
    (loaded "All" (List.replicate 12 [])).allTechnicians.length = 10 ∧
      (loaded "All" (List.replicate 12 [])).allTechnicians.map (fun t => t.vehicleID)
        = List.replicate 10 (.str "N/A") := by
  decide

/-- With technician `SR001` and request `SR011` selected and their control
on the map, selecting a technician whose latitude is the text `north` takes
the control off the map and then fails in `L.latLng`: no control is created
and the variable keeps the control that was removed. -/
theorem drawRouteIfReady_stops_on_text_latitude (host : Host) :
    (plainRouted host).mapControls = [0] ∧
      (selectTechnician host (plainRouted host) northTechnician).error = some .invalidLatLng ∧
      (selectTechnician host (plainRouted host) northTechnician).st.selectedTechnician
        = some northTechnician ∧
      (selectTechnician host (plainRouted host) northTechnician).st.mapControls = [] ∧
      (selectTechnician host (plainRouted host) northTechnician).st.routingControl = some 0 ∧
      (selectTechnician host (plainRouted host) northTechnician).st.routeLog
        = (plainRouted host).routeLog :=
  ⟨rfl, rfl, rfl, rfl, rfl, rfl⟩

/-- With two technician rows that share the identifier `SR001`, selecting
the second technician marks the item of the first, and a filter change then
leaves two technician items carrying `selected`. -/
theorem duplicate_ids_two_selected (host : Host) :
    (loaded "All" duplicateIdDataset).allTechnicians =
        [sampleTechnician "SR001" "VCL001" 1 32, sampleTechnician "SR001" "VCL001" 2 33] ∧
      (run host (loaded "All" duplicateIdDataset)
          [.selectTechnician (sampleTechnician "SR001" "VCL001" 2 33)]).technicianList.map
        (fun it => it.selected) = [true, false] ∧
      selectedCount
        (run host (loaded "All" duplicateIdDataset)
          [.selectTechnician (sampleTechnician "SR001" "VCL001" 2 33),
           .filterChange "All"]).technicianList = 2 :=
  ⟨rfl, rfl, rfl⟩

/-- Distinct identifiers are not enough when their string forms coincide:
with a technician whose identifier is the string `null`, one whose identifier
cell is empty and a third one, selecting the second, re-rendering and
selecting the third leaves two technician items carrying `selected`. -/
theorem same_string_ids_two_selected (host : Host) :
    (blankIdDataset.map (fun r => r.get "Service Request ID")).Nodup ∧
      selectedCount
        (run host (loaded "All" blankIdDataset)
          [.selectTechnician
            { sampleTechnician "" "N/A" 2 33 with technicianID := .null },
           .filterChange "All",
           .selectTechnician (sampleTechnician "SR003" "VCL003" 3 34)]).technicianList = 2 :=
  ⟨by decide, rfl⟩

/-- A priority with a space in it stops the request loop as well: the class
`priority-very high` is rejected by `classList.add`. -/
theorem renderSidebarLists_stops_at_spaced_priority :
    (renderSidebarLists
      { initial "All" with
        allServiceRequests := [sampleRow "SR011" 2 33 (.str "Very High")] }).error
      = some .invalidCharacterError := by
  decide

/-- A request whose latitude is the text `north` stops `renderMapMarkers`,
and with it the loader, before the sidebar is rendered. -/
theorem complete_stops_on_text_latitude :
    (complete (initial "All")
      (List.replicate 10 (sampleRow "SR001" 1 32 (.str "Low")) ++
        [[("Service Request ID", .str "SR011"), ("Severity/Priority", .str "Low"),
          ("Latitude", .str "north"), ("Longitude", .num 33)]])).error
      = some .invalidLatLng ∧
    (complete (initial "All")
      (List.replicate 10 (sampleRow "SR001" 1 32 (.str "Low")) ++
        [[("Service Request ID", .str "SR011"), ("Severity/Priority", .str "Low"),
          ("Latitude", .str "north"), ("Longitude", .num 33)]])).st.technicianList = [] := by
  decide

/-! ## The loader when the technician mapping completes -/

theorem mapThrowing_ok_length {α β : Type} (f : α → Except JSError β) :
    ∀ (l : List α) (bs : List β), mapThrowing f l = .ok bs → bs.length = l.length := by
  intro l
  induction l with
  | nil =>
    intro bs h
    simp only [mapThrowing] at h
    injection h with h
    subst h
    rfl
  | cons a rest ih =>
    intro bs h
    simp only [mapThrowing] at h
    split at h
    · cases h
    · split at h
      · cases h
      · rename_i b hb bs' hbs
        injection h with h
        rw [← h, List.length_cons, List.length_cons, ih bs' hbs]

/-- When the mapping returns, its `i`-th result is the callback's result on
the `i`-th element. -/
theorem mapThrowing_ok_getElem {α β : Type} (f : α → Except JSError β) :
    ∀ (l : List α) (bs : List β), mapThrowing f l = .ok bs →
      ∀ (i : Nat) (a : α), l[i]? = some a → ∃ b, bs[i]? = some b ∧ f a = .ok b := by
  intro l
  induction l with
  | nil => intro bs _ i a hi; simp at hi
  | cons x rest ih =>
    intro bs h i a hi
    simp only [mapThrowing] at h
    split at h
    · cases h
    · split at h
      · cases h
      · rename_i b hb _ bs' hbs
        injection h with h
        subst h
        cases i with
        | zero =>
          simp only [List.getElem?_cons_zero, Option.some.injEq] at hi
          subst hi
          exact ⟨b, by simp, hb⟩
        | succ j =>
          simp only [List.getElem?_cons_succ] at hi
          obtain ⟨b', hb', hf⟩ := ih bs' hbs j a hi
          exact ⟨b', by simpa using hb', hf⟩

/-- The mapping returns when the callback returns on every element. -/
theorem mapThrowing_ok_of_forall {α β : Type} (f : α → Except JSError β) :
    ∀ l : List α, (∀ a ∈ l, ∃ b, f a = .ok b) → ∃ bs, mapThrowing f l = .ok bs := by
  intro l
  induction l with
  | nil => intro _; exact ⟨[], rfl⟩
  | cons x rest ih =>
    intro h
    obtain ⟨b, hb⟩ := h x (List.mem_cons_self _ _)
    obtain ⟨bs, hbs⟩ := ih (fun a ha => h a (List.mem_cons_of_mem x ha))
    exact ⟨b :: bs, by simp [mapThrowing, hb, hbs]⟩

/-- The technician callback returns unless the identifier is truthy and not
a string. -/
theorem toTechnician_ok_iff (row : Row) :
    (∃ t, toTechnician row = .ok t) ↔
      (truthy (row.get "Service Request ID") = false ∨
        ∃ s, row.get "Service Request ID" = .str s) := by
  unfold toTechnician vehicleIdOf
  cases h : row.get "Service Request ID" with
  | null => simp [truthy]
  | undefined => simp [truthy]
  | bool b => cases b <;> simp [truthy]
  | num q =>
    by_cases hq : q = 0
    · simp [truthy, hq]
    · simp [truthy, hq]
  | str s =>
    by_cases hs : s = ""
    · simp [truthy, hs]
    · simp [truthy, hs]

/-- Once the technician mapping has returned, both collections are assigned,
whatever happens in the two renders that follow. -/
theorem complete_collections (s : State) (rawData : List Row) (technicians : List Technician)
    (h : mapThrowing toTechnician (rawData.take 10) = .ok technicians) :
    (complete s rawData).st.allTechnicians = technicians ∧
      (complete s rawData).st.allServiceRequests = (rawData.drop 10).filter keepRequest := by
  have hf := renderMapMarkers_frame
    { s with
      allTechnicians := technicians
      allServiceRequests := (rawData.drop 10).filter keepRequest }
  have hr := renderSidebarLists_frame (renderMapMarkers
    { s with
      allTechnicians := technicians
      allServiceRequests := (rawData.drop 10).filter keepRequest }).st
  unfold complete
  rw [h]
  simp only
  split
  · exact ⟨hf.1, hf.2.1⟩
  · exact ⟨hr.1.trans hf.1, hr.2.1.trans hf.2.1⟩

/-- The two collections never hold more entries than there are parsed rows. -/
theorem loaded_length_le (filter : String) (rawData : List Row) :
    (loaded filter rawData).allTechnicians.length +
      (loaded filter rawData).allServiceRequests.length ≤ rawData.length := by
  cases h : mapThrowing toTechnician (rawData.take 10) with
  | error e =>
    have : loaded filter rawData = initial filter := by
      simp [loaded, complete, h]
    rw [this]
    simp [initial]
  | ok technicians =>
    obtain ⟨h1, h2⟩ := complete_collections (initial filter) rawData technicians h
    unfold loaded
    rw [h1, h2, mapThrowing_ok_length _ _ _ h]
    have hle := List.length_filter_le keepRequest (rawData.drop 10)
    simp only [List.length_take, List.length_drop] at hle ⊢
    omega

/-- When the technician mapping completes, a row at index 10 or later that is
not among the requests has a `null` latitude, longitude or identifier. -/
theorem loaded_excluded_has_null (filter : String) (rawData : List Row)
    (technicians : List Technician)
    (h : mapThrowing toTechnician (rawData.take 10) = .ok technicians)
    (i : Nat) (row : Row) (hi : 10 ≤ i) (hrow : rawData[i]? = some row)
    (hex : row ∉ (loaded filter rawData).allServiceRequests) :
    row.get "Latitude" = .null ∨ row.get "Longitude" = .null ∨
      row.get "Service Request ID" = .null := by
  obtain ⟨-, h2⟩ := complete_collections (initial filter) rawData technicians h
  unfold loaded at hex
  rw [h2] at hex
  have hmem : row ∈ rawData.drop 10 := by
    obtain ⟨j, rfl⟩ := Nat.exists_eq_add_of_le hi
    have : (rawData.drop 10)[j]? = some row := by
      rw [List.getElem?_drop]; exact hrow
    exact List.getElem?_mem this
  have hkeep : keepRequest row = false := by
    by_contra hk
    exact hex (List.mem_filter.mpr ⟨hmem, by simpa using hk⟩)
  unfold keepRequest strictEq at hkeep
  by_cases h1 : row.get "Latitude" = .null
  · exact Or.inl h1
  · by_cases h2 : row.get "Longitude" = .null
    · exact Or.inr (Or.inl h2)
    · by_cases h3 : row.get "Service Request ID" = .null
      · exact Or.inr (Or.inr h3)
      · simp [h1, h2, h3] at hkeep

/-- When no identifier among the first ten rows is a truthy non-string, the
loader builds `min n 10` technicians, the `i`-th from row `i`. -/
theorem loaded_technicians_positional (filter : String) (rawData : List Row)
    (hid : ∀ row ∈ rawData.take 10,
      truthy (row.get "Service Request ID") = false ∨
        ∃ s, row.get "Service Request ID" = .str s) :
    (loaded filter rawData).allTechnicians.length = min rawData.length 10 ∧
      ∀ (i : Nat) (row : Row), i < 10 → rawData[i]? = some row →
        ∃ t, (loaded filter rawData).allTechnicians[i]? = some t ∧
          toTechnician row = .ok t := by
  obtain ⟨technicians, h⟩ := mapThrowing_ok_of_forall toTechnician (rawData.take 10)
    (fun row hrow => (toTechnician_ok_iff row).mpr (hid row hrow))
  obtain ⟨h1, -⟩ := complete_collections (initial filter) rawData technicians h
  unfold loaded
  rw [h1]
  constructor
  · rw [mapThrowing_ok_length _ _ _ h, List.length_take]
    omega
  · intro i row hi hrow
    apply mapThrowing_ok_getElem _ _ _ h i row
    rw [List.getElem?_take]
    simp [hi, hrow]

/-! ## The renders when no callback throws -/

/-- A loop whose callback returns on every element adds what the callback
gives, in order. -/
theorem appendEach_of_ok {α β : Type} (f : α → Except JSError (Option β)) (g : α → Option β)
    (l : List α) (h : ∀ a ∈ l, f a = .ok (g a)) :
    ∀ acc : List β, appendEach f l acc = (acc ++ l.filterMap g, none) := by
  induction l with
  | nil => intro acc; simp [appendEach]
  | cons a rest ih =>
    intro acc
    have ha := h a (List.mem_cons_self _ _)
    have ih' := ih (fun x hx => h x (List.mem_cons_of_mem a hx))
    cases hg : g a with
    | none =>
      rw [hg] at ha
      simp only [appendEach, ha, ih', List.filterMap_cons, hg]
    | some b =>
      rw [hg] at ha
      simp only [appendEach, ha, ih', List.filterMap_cons, hg]
      simp

/-- When every request kept by the filter has a string priority without
white space, the render completes and the request items are, in order, those
of the kept requests. -/
theorem renderSidebarLists_exact (s : State)
    (h : ∀ r ∈ s.allServiceRequests.filter (matchesFilter s.priorityFilter),
      ∃ p, r.get "Severity/Priority" = .str p ∧ p.data.any isAsciiWhiteSpace = false) :
    (renderSidebarLists s).error = none ∧
      (renderSidebarLists s).st.requestList.map (fun it => it.entity)
        = s.allServiceRequests.filter (matchesFilter s.priorityFilter) ∧
      (renderSidebarLists s).st.pendingCount
        = (s.allServiceRequests.filter (matchesFilter s.priorityFilter)).length ∧
      (renderSidebarLists s).st.technicianList.map (fun it => it.entity) = s.allTechnicians := by
  have hnone : (appendEach (requestItem s.selectedServiceRequest)
      (s.allServiceRequests.filter (matchesFilter s.priorityFilter)) []).2 = none := by
    generalize s.allServiceRequests.filter (matchesFilter s.priorityFilter) = l at h
    generalize ([] : List (ListItem Row)) = acc
    induction l generalizing acc with
    | nil => rfl
    | cons r rest ih =>
      obtain ⟨p, hp, hw⟩ := h r (List.mem_cons_self _ _)
      simp only [appendEach, requestItem, hp, hw]
      exact ih (fun x hx => h x (List.mem_cons_of_mem r hx)) _
  obtain ⟨k, -, h2, h3, -⟩ := appendEach_requestItem s.selectedServiceRequest
    (s.allServiceRequests.filter (matchesFilter s.priorityFilter)) []
  have hk := h3 hnone
  rw [List.take_of_length_le hk] at h2
  unfold renderSidebarLists
  simp only
  split
  · rename_i items e heq
    rw [heq] at hnone
    cases hnone
  · rename_i items heq
    rw [heq] at h2
    refine ⟨rfl, by simpa using h2, rfl, ?_⟩
    show (s.allTechnicians.map (technicianItem s.selectedTechnician)).map _ = _
    rw [List.map_map]
    exact List.map_id _

/-- With a filter `Low`, `Medium` or `High` the render completes and the
request items are, in order, the requests whose priority is the filter
value. -/
theorem renderSidebarLists_exact_of_level (s : State)
    (hf : s.priorityFilter = "Low" ∨ s.priorityFilter = "Medium" ∨ s.priorityFilter = "High") :
    (renderSidebarLists s).error = none ∧
      (renderSidebarLists s).st.requestList.map (fun it => it.entity)
        = s.allServiceRequests.filter
            (fun r => decide (r.get "Severity/Priority" = .str s.priorityFilter)) := by
  have hne : s.priorityFilter ≠ "All" := by
    rcases hf with h | h | h <;> rw [h] <;> decide
  have hws : s.priorityFilter.data.any isAsciiWhiteSpace = false := by
    rcases hf with h | h | h <;> rw [h] <;> decide
  have h := renderSidebarLists_exact s (fun r hr => by
    refine ⟨s.priorityFilter, ?_, hws⟩
    simpa [matchesFilter, strictEq, hne] using (List.mem_filter.mp hr).2)
  refine ⟨h.1, ?_⟩
  rw [h.2.1]
  apply List.filter_congr
  intro r _
  simp [matchesFilter, strictEq, hne]

/-- When `L.marker` accepts every pair of truthy coordinates, the render
completes and the markers are, in order, those of the requests and of the
technicians whose latitude and longitude are both truthy. -/
theorem renderMapMarkers_exact (s : State)
    (hr : ∀ r ∈ s.allServiceRequests,
      markerThrows (r.get "Latitude") (r.get "Longitude") = false)
    (ht : ∀ t ∈ s.allTechnicians,
      markerThrows t.currentLocationLat t.currentLocationLon = false) :
    (renderMapMarkers s).error = none ∧
      (renderMapMarkers s).st.serviceRequestLayer.map (fun m => m.data)
        = s.allServiceRequests.filter
            (fun r => truthy (r.get "Latitude") && truthy (r.get "Longitude")) ∧
      (renderMapMarkers s).st.technicianLayer.map (fun m => m.data)
        = s.allTechnicians.filter
            (fun t => truthy t.currentLocationLat && truthy t.currentLocationLon) := by
  have h1 := appendEach_of_ok requestMarker
    (fun r => if truthy (r.get "Latitude") && truthy (r.get "Longitude") then
      some
        { lat := r.get "Latitude", lon := r.get "Longitude",
          icon := getRequestIcon (r.get "Severity/Priority"), data := r }
      else none)
    s.allServiceRequests
    (by
      intro r hmem
      simp only [requestMarker, hr r hmem]
      split <;> rfl) []
  have h2 := appendEach_of_ok technicianMarker
    (fun t => if truthy t.currentLocationLat && truthy t.currentLocationLon then
      some
        { lat := t.currentLocationLat, lon := t.currentLocationLon,
          icon := technicianIcon, data := t }
      else none)
    s.allTechnicians
    (by
      intro t hmem
      simp only [technicianMarker, ht t hmem]
      split <;> rfl) []
  unfold renderMapMarkers
  simp only [h1, h2, List.nil_append]
  refine ⟨trivial, ?_, ?_⟩
  · generalize s.allServiceRequests = l
    induction l with
    | nil => rfl
    | cons r rest ih =>
      by_cases h : (truthy (r.get "Latitude") && truthy (r.get "Longitude")) = true
      · rw [List.filterMap_cons_some (by rw [if_pos h]), List.map_cons, ih, List.filter_cons,
          if_pos h]
      · rw [List.filterMap_cons_none (by rw [if_neg h]), ih, List.filter_cons, if_neg h]
  · generalize s.allTechnicians = l
    induction l with
    | nil => rfl
    | cons t rest ih =>
      by_cases h : (truthy t.currentLocationLat && truthy t.currentLocationLon) = true
      · rw [List.filterMap_cons_some (by rw [if_pos h]), List.map_cons, ih, List.filter_cons,
          if_pos h]
      · rw [List.filterMap_cons_none (by rw [if_neg h]), ih, List.filter_cons, if_neg h]

/-- A number is truthy exactly when it is not zero, and `L.marker` accepts
every pair of numbers. -/
theorem truthy_num_iff (q : ℚ) (v : Val) :
    (truthy (.num q) = true ↔ q ≠ 0) ∧ markerThrows (.num q) (.num q) = false ∧
      (isNaN v = false → markerThrows (.num q) v = false) := by
  refine ⟨by simp [truthy], rfl, ?_⟩
  intro h
  show (isNaN (.num q) || isNaN v) = false
  rw [h]
  rfl

/-! ## The claims -/

/-- C1, at a failing input: on the page where technician `SR"2` and request
`SR011` are selected and their route is drawn, the clear-route handler takes
the routing control off the map and then looks up
`li[data-tech-id="SR"2"]`, which is not a valid selector: it ends with a
`SyntaxError` and both selections are still set. -/
theorem clearRoute_keeps_selections_on_quoted_id (host : Host) :
    (quotedRouted host).selectedTechnician = some quotedTechnician ∧
      (quotedRouted host).selectedServiceRequest = some (sampleRow "SR011" 1 32 (.str "High")) ∧
      (quotedRouted host).routingControl = some 0 ∧
      (clearRoute host (quotedRouted host)).error = some .syntaxError ∧
      (clearRoute host (quotedRouted host)).st.routingControl = none ∧
      (clearRoute host (quotedRouted host)).st.selectedTechnician = some quotedTechnician ∧
      (clearRoute host (quotedRouted host)).st.selectedServiceRequest
        = some (sampleRow "SR011" 1 32 (.str "High")) :=
  ⟨rfl, rfl, rfl, rfl, rfl, rfl, rfl⟩

/-- C2, at a failing input: on the page where technician `SR"2` is the
current selection, `selectTechnician` with technician `SR001` looks up the
previous item with an invalid selector, ends with a `SyntaxError` before the
assignment, and `SR"2` stays selected. -/
theorem selectTechnician_keeps_previous_on_quoted_id (host : Host) :
    (loaded "All" quotedIdDataset).allTechnicians[1]? = some quotedTechnician ∧
      (quotedSelected host).selectedTechnician = some quotedTechnician ∧
      (selectTechnician host (quotedSelected host)
        (sampleTechnician "SR001" "VCL001" 1 32)).error = some .syntaxError ∧
      (selectTechnician host (quotedSelected host)
        (sampleTechnician "SR001" "VCL001" 1 32)).st.selectedTechnician
        = some quotedTechnician :=
  ⟨rfl, rfl, rfl, rfl⟩

/-- C3: a selection action creates a routing control only if, once the
selection is set, both a technician and a service request are selected; with
no request selected `selectTechnician` creates none, and with no technician
selected `selectServiceRequest` creates none.  This holds whatever the host
answers and whether or not the action throws. -/
theorem route_created_only_when_both (host : Host) (s : State) (t : Technician) (r : Row) :
    ((selectTechnician host s t).st.routeLog ≠ s.routeLog →
        (selectTechnician host s t).st.selectedTechnician.isSome = true ∧
          (selectTechnician host s t).st.selectedServiceRequest.isSome = true) ∧
      ((selectServiceRequest host s r).st.routeLog ≠ s.routeLog →
        (selectServiceRequest host s r).st.selectedTechnician.isSome = true ∧
          (selectServiceRequest host s r).st.selectedServiceRequest.isSome = true) ∧
      (s.selectedServiceRequest = none →
        (selectTechnician host s t).st.routeLog = s.routeLog ∧
          (selectTechnician host s t).st.routingControl = s.routingControl ∧
          (selectTechnician host s t).st.mapControls = s.mapControls) ∧
      (s.selectedTechnician = none →
        (selectServiceRequest host s r).st.routeLog = s.routeLog ∧
          (selectServiceRequest host s r).st.routingControl = s.routingControl ∧
          (selectServiceRequest host s r).st.mapControls = s.mapControls) := by
  refine ⟨?_, ?_, ?_, ?_⟩
  · intro h
    rcases selectTechnician_cases host s t with h0 | ⟨items, h1⟩ | ⟨items, h2⟩
    · rw [h0] at h; exact absurd rfl h
    · rw [h1] at h; exact absurd rfl h
    · rw [h2] at h ⊢
      have hf := drawRouteIfReady_frame
        { s with selectedTechnician := some t, technicianList := items }
      rw [hf.1, hf.2.1]
      exact drawRouteIfReady_created _ h
  · intro h
    rcases selectServiceRequest_cases host s r with h0 | ⟨items, h1⟩ | ⟨items, h2⟩
    · rw [h0] at h; exact absurd rfl h
    · rw [h1] at h; exact absurd rfl h
    · rw [h2] at h ⊢
      have hf := drawRouteIfReady_frame
        { s with selectedServiceRequest := some r, requestList := items }
      rw [hf.1, hf.2.1]
      exact drawRouteIfReady_created _ h
  · intro h
    rcases selectTechnician_cases host s t with h0 | ⟨items, h1⟩ | ⟨items, h2⟩
    · rw [h0]; exact ⟨rfl, rfl, rfl⟩
    · rw [h1]; exact ⟨rfl, rfl, rfl⟩
    · rw [h2, drawRouteIfReady_not_ready]
      · exact ⟨rfl, rfl, rfl⟩
      · exact Or.inr h
  · intro h
    rcases selectServiceRequest_cases host s r with h0 | ⟨items, h1⟩ | ⟨items, h2⟩
    · rw [h0]; exact ⟨rfl, rfl, rfl⟩
    · rw [h1]; exact ⟨rfl, rfl, rfl⟩
    · rw [h2, drawRouteIfReady_not_ready]
      · exact ⟨rfl, rfl, rfl⟩
      · exact Or.inl h

/-- C4, at a failing input: with technician `SR001` and request `SR011`
selected and their control, number 0, on the map, `selectTechnician` with
technician `SR"2` sets the selection and then fails on the lookup of the new
item, so `drawRouteIfReady` is not reached: control 0 stays held and on the
map, and no control from `SR"2` to `SR011` is created. -/
theorem selectTechnician_keeps_route_on_quoted_id (host : Host) :
    (plainRouted host).selectedTechnician = some (sampleTechnician "SR001" "VCL001" 1 32) ∧
      (plainRouted host).selectedServiceRequest = some (sampleRow "SR011" 1 32 (.str "High")) ∧
      (plainRouted host).routingControl = some 0 ∧
      (plainRouted host).mapControls = [0] ∧
      (plainRouted host).routeLog =
        [{ start := (.num 1, .num 32), finish := (.num 1, .num 32) }] ∧
      (selectTechnician host (plainRouted host) quotedTechnician).error = some .syntaxError ∧
      (selectTechnician host (plainRouted host) quotedTechnician).st.selectedTechnician
        = some quotedTechnician ∧
      (selectTechnician host (plainRouted host) quotedTechnician).st.routingControl = some 0 ∧
      (selectTechnician host (plainRouted host) quotedTechnician).st.mapControls = [0] ∧
      (selectTechnician host (plainRouted host) quotedTechnician).st.routeLog
        = (plainRouted host).routeLog :=
  ⟨rfl, rfl, rfl, rfl, rfl, rfl, rfl, rfl, rfl, rfl⟩

/-- C5, at a failing input: with filter `All` and three loadable requests of
which the second has a `null` priority, `renderSidebarLists` raises a
`TypeError` at the second request; the sidebar then holds one request item
(for the first request) although the pending count reads three, and no
technician item is built. -/
theorem renderSidebarLists_stops_at_null_priority :
    blankPriorityRequests.filter keepRequest = blankPriorityRequests ∧
      (renderSidebarLists
        { initial "All" with allServiceRequests := blankPriorityRequests }).error
        = some .typeError ∧
      (renderSidebarLists
        { initial "All" with allServiceRequests := blankPriorityRequests }).st.requestList.map
          (fun it => it.entity) = [sampleRow "SR011" 2 33 (.str "High")] ∧
      (renderSidebarLists
        { initial "All" with allServiceRequests := blankPriorityRequests }).st.pendingCount = 3 ∧
      blankPriorityRequests.filter (matchesFilter "All") = blankPriorityRequests := by
  decide

/-- C6, at a failing input: on eleven rows whose first row has the numeric
identifier 1001, the technician mapping raises a `TypeError` before the
request filter runs; both collections stay empty, so the row at index 10 is
not among the requests although its latitude, longitude and identifier are
all non-null. -/
theorem complete_leaves_requests_empty_on_numeric_id :
    (complete (initial "All") numericIdDataset).error = some .typeError ∧
      (complete (initial "All") numericIdDataset).st.allServiceRequests = [] ∧
      numericIdDataset[10]? = some (sampleRow "SR011" 2 33 (.str "High")) ∧
      (sampleRow "SR011" 2 33 (.str "High")).get "Latitude" ≠ .null ∧
      (sampleRow "SR011" 2 33 (.str "High")).get "Longitude" ≠ .null ∧
      (sampleRow "SR011" 2 33 (.str "High")).get "Service Request ID" ≠ .null := by
  decide

/-- C7, at a failing input: on a single row whose identifier is the number
1001, `replace` is called on a number, the callback raises a `TypeError`, and
no technician is produced, where `min 1 10 = 1` was expected. -/
theorem complete_builds_no_technician_on_numeric_id :
    toTechnician numericIdRow = .error .typeError ∧
      (complete (initial "All") [numericIdRow]).error = some .typeError ∧
      (complete (initial "All") [numericIdRow]).st.allTechnicians = [] ∧
      min [numericIdRow].length 10 = 1 := by
  decide

/-- C8, at a failing input: with the two technicians `SR\1` and `SR003`,
whose identifiers differ, selecting `SR\1`, changing the filter and selecting
`SR003` leaves two technician items carrying `selected`.  The re-render marks
the item of `SR\1`; the later lookup reads `\1` in the selector as an escape,
finds no item, and the mark is never removed. -/
theorem escaped_id_two_selected (host : Host) :
    (loaded "All" escapedIdDataset).allTechnicians =
        [sampleTechnician "SR\\1" "VCL\\1" 1 32, sampleTechnician "SR003" "VCL003" 3 34] ∧
      readSelector "SR\\1" = .attrEquals (String.mk ['S', 'R', Char.ofNat 1]) ∧
      (run host (loaded "All" escapedIdDataset)
          [.selectTechnician (sampleTechnician "SR\\1" "VCL\\1" 1 32),
           .filterChange "All",
           .selectTechnician (sampleTechnician "SR003" "VCL003" 3 34)]).technicianList.map
        (fun it => (it.dataId, it.selected)) = [("SR\\1", true), ("SR003", true)] ∧
      selectedCount
        (run host (loaded "All" escapedIdDataset)
          [.selectTechnician (sampleTechnician "SR\\1" "VCL\\1" 1 32),
           .filterChange "All",
           .selectTechnician (sampleTechnician "SR003" "VCL003" 3 34)]).technicianList = 2 :=
  ⟨rfl, rfl, rfl, rfl⟩

/-- C9, at a failing input: a loadable request at latitude 0 and longitude
33 has two non-null numeric coordinates, yet `renderMapMarkers` adds no
marker for it; likewise for a technician at latitude 0. -/
theorem renderMapMarkers_skips_zero_latitude :
    keepRequest (sampleRow "SR011" 0 33 (.str "High")) = true ∧
      (renderMapMarkers
        { initial "All" with
          allServiceRequests := [sampleRow "SR011" 0 33 (.str "High")]
          allTechnicians := [sampleTechnician "SR001" "VCL001" 0 32] }).st.serviceRequestLayer
        = [] ∧
      (renderMapMarkers
        { initial "All" with
          allServiceRequests := [sampleRow "SR011" 0 33 (.str "High")]
          allTechnicians := [sampleTechnician "SR001" "VCL001" 0 32] }).st.technicianLayer
        = [] := by
  decide

/-- C10: the icon class is `request-marker-high` exactly for the string
`High`, `request-marker-medium` exactly for the string `Medium`, and
`request-marker-low` for every other value; the comparison is case-sensitive,
so `high`, `MEDIUM`, `Low` and `null` all give the low class. -/
theorem getRequestIcon_className (p : Val) :
    ((getRequestIcon p).className = "request-marker-high" ↔ p = .str "High") ∧
      ((getRequestIcon p).className = "request-marker-medium" ↔ p = .str "Medium") ∧
      ((getRequestIcon p).className = "request-marker-low" ↔
        (p ≠ .str "High" ∧ p ≠ .str "Medium")) ∧
      (getRequestIcon (.str "high")).className = "request-marker-low" ∧
      (getRequestIcon (.str "MEDIUM")).className = "request-marker-low" ∧
      (getRequestIcon (.str "Low")).className = "request-marker-low" ∧
      (getRequestIcon .null).className = "request-marker-low" := by
  refine ⟨?_, ?_, ?_, by decide, by decide, by decide, by decide⟩
  · by_cases h1 : p = .str "High"
    · simp [getRequestIcon, strictEq, h1]
    · by_cases h2 : p = .str "Medium"
      · simp [getRequestIcon, strictEq, h2]
      · simp [getRequestIcon, strictEq, h1, h2]
  · by_cases h1 : p = .str "High"
    · simp [getRequestIcon, strictEq, h1]
    · by_cases h2 : p = .str "Medium"
      · simp [getRequestIcon, strictEq, h2]
      · simp [getRequestIcon, strictEq, h1, h2]
  · by_cases h1 : p = .str "High"
    · simp [getRequestIcon, strictEq, h1]
    · by_cases h2 : p = .str "Medium"
      · simp [getRequestIcon, strictEq, h2]
      · simp [getRequestIcon, strictEq, h1, h2]

end DispatchMap
